import Mathlib

/-!
Verification of the stream-demultiplexing, navigation and event-plumbing
layer of `src/libbluray/bluray.c` (libbluray playback core), via a shallow
embedding in Lean.  Machine integers are modelled as `Nat` with explicit
`% 2^w` where C truncation matters; fallible I/O collaborators (file reads,
the HDMV virtual machine, the graphics controller) are modelled as explicit
oracle inputs describing the outcome of each external call.
-/

namespace LibBluray

/-- Navigation-mode event kinds used by the embedded code paths
(subset of `bd_event_e`; the numeric values are irrelevant here,
only which kind is queued). -/
inductive EvType where
  | none
  | error
  | readError
  | encrypted
  | uoMaskChanged
  | menu
  | popup
  | soundEffect
  | idle
  deriving DecidableEq, Repr

/-- A queued `BD_EVENT`: event kind plus `uint32_t` parameter. -/
structure BDEvent where
  event : EvType
  param : Nat
  deriving DecidableEq, Repr

/-- Error code passed with `BD_EVENT_ENCRYPTED` (`BD_ERROR_AACS`).
Value as in the public header; only its identity matters here. -/
def BD_ERROR_AACS : Nat := 3

/-- Error code passed with `BD_EVENT_ERROR` on HDMV faults / live locks
(`BD_ERROR_HDMV`). -/
def BD_ERROR_HDMV : Nat := 1

/-- `_queue_event(bd, event, param)`: FIFO append to the event queue.
(The C queue can overflow; overflow merely drops the event with a log
message, and none of the embedded paths depends on the bound, so the
queue is modelled as an unbounded FIFO list.) -/
def queue_event (q : List BDEvent) (event : EvType) (param : Nat) : List BDEvent :=
  q ++ [⟨event, param⟩]

/-- `_get_event(bd, ev)`: pop the oldest queued event, if any. -/
def get_event (q : List BDEvent) : Option BDEvent × List BDEvent :=
  match q with
  | [] => (Option.none, [])
  | e :: rest => (some e, rest)

/-- `SPN(pos)`: `(((uint32_t)((pos) >> 6)) / 3)` — stream packet number from
byte offset, with the C cast of the shifted 64-bit position to `uint32_t`. -/
def SPN (pos : Nat) : Nat := ((pos >>> 6) % 2 ^ 32) / 3

/-!  ## User-operation masks

`BD_UO_MASK` and `uo_mask_combine` live in `bdnav/uo_mask.h`, which is not
part of the provided sources.  Modelled from the spec: a user-operation mask
is a "permission bitset controlling which user actions (menu call, title
search, etc.) are currently allowed", and the combination of masks is "the
bitwise combination" — field-wise OR.  The `menu_call` and `title_search`
bits are the ones the code inspects individually; all remaining bits are
folded into one `Nat` bitset. -/

structure UoMask where
  menu_call : Bool
  title_search : Bool
  rest : Nat
  deriving DecidableEq, Repr

/-- Modelled from the spec: `uo_mask_combine` — bitwise (field-wise) OR of
two user-operation masks. -/
def uo_mask_combine (a b : UoMask) : UoMask :=
  { menu_call := a.menu_call || b.menu_call
    title_search := a.title_search || b.title_search
    rest := a.rest ||| b.rest }

/-- `EMPTY_UO_MASK`: all-permitted (all-zero) mask. -/
def EMPTY_UO_MASK : UoMask := ⟨false, false, 0⟩

/-- `_compressed_mask(mask)`: `mask.menu_call | (mask.title_search << 1)`. -/
def compressed_mask (mask : UoMask) : Nat :=
  (cond mask.menu_call 1 0) ||| ((cond mask.title_search 1 0) <<< 1)

/-!  ## Navigation data model

`NAV_CLIP` / `NAV_TITLE` / `NAV_MARK` come from `bdnav/navigation.h`
(not among the provided sources); only the fields the embedded code
reads are modelled.  The play-item / playlist indirection
(`clip->title->pl->play_item[clip->ref]`) is carried as an `MplsPl`
record reachable from the clip. -/

structure PlayItem where
  uo_mask : UoMask
  deriving DecidableEq, Repr

structure MplsPl where
  app_info_uo_mask : UoMask
  play_item : List PlayItem
  deriving DecidableEq, Repr

structure NavClip where
  ref : Nat
  start_pkt : Nat
  end_pkt : Nat
  title_pkt : Nat
  /-- Modelled from the spec: clip-information access-point table — packet
  numbers of the valid access (entry) points inside the clip, used to find
  "the nearest valid access point at or before the requested position". -/
  accessPoints : List Nat
  pl : MplsPl
  deriving DecidableEq, Repr

structure NavMark where
  clip_ref : Nat
  clip_pkt : Nat
  title_pkt : Nat
  deriving DecidableEq, Repr

structure NavTitle where
  clips : List NavClip
  marks : List NavMark
  /-- total packet count of the title (`title->packets`). -/
  packets : Nat
  deriving DecidableEq, Repr

/-!  ## Stream cursor (`BD_STREAM`) -/

/-- `BD_STREAM` — per-path demux cursor state.  `fp` models whether the
file handle is open; the `m2ts_filter` pointer is modelled by presence.
`encrypted_block_cnt` is a `uint8_t` (wraps at 256). -/
structure BDStream where
  clip : Option NavClip
  fp : Bool
  clip_size : Nat
  clip_block_pos : Nat
  clip_pos : Nat
  int_buf_off : Nat
  uo_mask : UoMask
  eof_hit : Bool
  encrypted_block_cnt : Nat
  seek_flag : Bool
  m2ts_filter : Bool
  deriving DecidableEq, Repr

/-- An aligned unit handed to validation: byte at each offset. -/
def Buf := Nat → Nat

/-- `_validate_unit(bd, st, buf)`.  Returns the C result (−1 fatal, 0 drop,
1 accept) plus the updated event queue and stream state.  Mirrors the
source: the copy-permission indicator is `buf[0] & 0xc0`, the sync bytes
are inspected at offsets 4, 4+192, 4+2*192, 4+3*192. -/
def validate_unit (buf : Buf) (q : List BDEvent) (st : BDStream) :
    Int × List BDEvent × BDStream :=
  if buf 0 &&& 0xc0 ≠ 0 ∨ buf 4 ≠ 0x47 then
    if buf 4 ≠ 0x47 ∨ buf (4 + 192) ≠ 0x47 ∨ buf (4 + 2*192) ≠ 0x47 ∨
        buf (4 + 3*192) ≠ 0x47 then
      if buf 4 = 0x47 then
        let st := { st with encrypted_block_cnt := (st.encrypted_block_cnt + 1) % 256 }
        if st.encrypted_block_cnt > 10 then
          (-1, queue_event q .encrypted BD_ERROR_AACS, st)
        else
          (0, queue_event q .readError 1, st)
      else
        (0, queue_event q .readError 1, st)
    else
      (1, q, { st with eof_hit := false, encrypted_block_cnt := 0 })
  else
    (1, q, { st with eof_hit := false, encrypted_block_cnt := 0 })

/-- Outcome of the external `file_seek` call inside `_skip_unit`
(seek to the next unit start succeeds or fails). -/
def skip_unit (seekOk : Bool) (q : List BDEvent) (st : BDStream) :
    Int × List BDEvent × BDStream :=
  let st := { st with clip_block_pos := st.clip_block_pos + 6144
                    , clip_pos := st.clip_pos + 6144 }
  let q := queue_event q .readError 0
  if seekOk then (0, q, st) else (-1, q, st)

/-- Outcomes of the external calls made by one `_read_block` invocation:
the byte count `file_read` returned, the bytes it produced, whether the
`file_seek` in a subsequent `_skip_unit` succeeds, and the `m2ts_filter`
result for an accepted unit. -/
structure ReadOut where
  readLen : Nat
  buf : Buf
  seekOk : Bool
  filterRes : Int

/-- `_read_block(bd, st, buf)` — read and validate one 6144-byte aligned
unit.  Returns the C result (1 accept, 0 skip/EOF, −1 fatal) plus updated
queue and stream. -/
def read_block (io : ReadOut) (q : List BDEvent) (st : BDStream) :
    Int × List BDEvent × BDStream :=
  if st.fp then
    if 6144 + st.clip_block_pos ≤ st.clip_size then
      if io.readLen ≠ 0 then
        if io.readLen ≠ 6144 then
          skip_unit io.seekOk q st
        else
          let st := { st with clip_block_pos := st.clip_block_pos + 6144 }
          let r := validate_unit io.buf q st
          if r.1 ≤ 0 then
            (r.1, r.2.1, { r.2.2 with clip_pos := r.2.2.clip_pos + 6144 })
          else
            let st := r.2.2
            let st := if st.m2ts_filter then
                        (if io.filterRes < 0 then { st with m2ts_filter := false } else st)
                      else st
            (1, r.2.1, st)
      else
        skip_unit io.seekOk q st
    else
      let st := { st with clip_block_pos := st.clip_block_pos + 6144
                        , clip_pos := st.clip_pos + 6144 }
      let st := if st.eof_hit then st else { st with eof_hit := true }
      (0, q, st)
  else
    (-1, q, st)

/-!  ## Player state (`struct bluray`, the fields the embedded paths touch) -/

/-- `BD_TITLE_TYPE`. -/
inductive TitleType where
  | undef
  | hdmv
  | bdj
  deriving DecidableEq, Repr

/-- Graphics-controller status bits (`GC_STATUS_*`, from
`decoders/graphics_controller.h`, not among the provided sources; modelled
as distinct bits, which is all the code uses). -/
def GC_STATUS_ANIMATE : Nat := 1

def GC_STATUS_MENU_OPEN : Nat := 2

def GC_STATUS_POPUP : Nat := 4

/-- The fields of `struct bluray` read or written by the embedded code
paths.  `graphics_controller` / `hdmv_vm` model the non-NULLness of the
corresponding pointers. -/
structure Bd where
  st0 : BDStream
  queue : List BDEvent
  uo_mask : UoMask
  title_uo_mask : UoMask
  gc_uo_mask : UoMask
  gc_status : Nat
  title : Option NavTitle
  title_type : TitleType
  hdmv_suspended : Bool
  s_pos : Nat
  end_of_playlist : Nat
  bdj_wait_start : Bool
  graphics_controller : Bool
  hdmv_vm : Bool
  deriving Repr

/-- `_update_uo_mask(bd)`: recompute the combined user-operation mask from
the three contributors and queue `BD_EVENT_UO_MASK_CHANGED` when the
compressed (menu-call/title-search) bits changed. -/
def update_uo_mask (bd : Bd) : Bd :=
  let old_mask := bd.uo_mask
  let new_mask := uo_mask_combine bd.title_uo_mask bd.st0.uo_mask
  let new_mask := uo_mask_combine bd.gc_uo_mask new_mask
  let bd :=
    if compressed_mask old_mask ≠ compressed_mask new_mask then
      { bd with queue := queue_event bd.queue .uoMaskChanged (compressed_mask new_mask) }
    else bd
  { bd with uo_mask := new_mask }

/-- HDMV VM user-operation mask bits (`HDMV_MENU_CALL_MASK`,
`HDMV_TITLE_SEARCH_MASK` from `hdmv/hdmv_vm.h`, not among the provided
sources; modelled as distinct bits). -/
def HDMV_MENU_CALL_MASK : Nat := 1

def HDMV_TITLE_SEARCH_MASK : Nat := 2

/-- `_update_hdmv_uo_mask(bd)`; `mask` is the value returned by the
external `hdmv_vm_get_uo_mask`. -/
def update_hdmv_uo_mask (mask : Nat) (bd : Bd) : Bd :=
  let bd := { bd with title_uo_mask :=
    { bd.title_uo_mask with
        title_search := mask &&& HDMV_TITLE_SEARCH_MASK ≠ 0
        menu_call := mask &&& HDMV_MENU_CALL_MASK ≠ 0 } }
  update_uo_mask bd

/-- BD-J user-operation mask bits (`BDJ_MENU_CALL_MASK`,
`BDJ_TITLE_SEARCH_MASK` from `bdj/bdj.h`, not among the provided sources;
modelled as distinct bits). -/
def BDJ_MENU_CALL_MASK : Nat := 1

def BDJ_TITLE_SEARCH_MASK : Nat := 2

/-- `bd_set_bdj_uo_mask(bd, mask)`. -/
def bd_set_bdj_uo_mask (bd : Bd) (mask : Nat) : Bd :=
  let bd := { bd with title_uo_mask :=
    { bd.title_uo_mask with
        title_search := mask &&& BDJ_TITLE_SEARCH_MASK ≠ 0
        menu_call := mask &&& BDJ_MENU_CALL_MASK ≠ 0 } }
  update_uo_mask bd

/-!  ## Opening a clip (`_open_m2ts`) -/

/-- Outcomes of the external calls made by `_open_m2ts`:
`disc_open_stream` success, the `file_size` result, `file_seek` success,
and the events queued through PSR-change callbacks by the
`_update_clip_psrs` / `_init_pg_stream` / `_init_textst_timer` calls made
for the main-path stream (those functions live outside the embedded
fields and are represented by the events they enqueue). -/
structure OpenOut where
  openOk : Bool
  fileSize : Int
  seekOk : Bool
  psrEvents : List BDEvent

instance : Inhabited PlayItem := ⟨⟨EMPTY_UO_MASK⟩⟩

/-- `_close_m2ts(st)`. -/
def close_m2ts (st : BDStream) : BDStream :=
  { st with fp := false, m2ts_filter := false }

/-- `_open_m2ts(bd, st)` for a stream other than `&bd->st0` (the
`st == &bd->st0` block is skipped; this is the variant `_preload_m2ts`
exercises on its stack-local stream).  No events are queued on this
path. -/
def open_m2ts_sub (io : OpenOut) (st : BDStream) : Int × BDStream :=
  let st := close_m2ts st
  match st.clip with
  | Option.none => (0, st)
  | some clip =>
    let st := { st with fp := io.openOk
                      , clip_size := 0
                      , clip_pos := clip.start_pkt * 192
                      , clip_block_pos := (clip.start_pkt * 192 / 6144) * 6144
                      , eof_hit := false
                      , encrypted_block_cnt := 0 }
    if st.fp then
      if io.fileSize > 0 then
        if io.seekOk then
          (1, { st with clip_size := io.fileSize.toNat, int_buf_off := 6144 })
        else
          (0, close_m2ts st)
      else
        (0, close_m2ts st)
    else
      (0, st)

/-- `_open_m2ts(bd, st)` for `st == &bd->st0`: the shared path of
`open_m2ts_sub` followed by the main-path block — combining the
playlist-wide and play-item user-operation masks into the stream mask,
`_update_uo_mask`, `m2ts_filter_init`, and the PSR/graphics
initialisation calls (represented by the events they queue). -/
def open_m2ts0 (io : OpenOut) (bd : Bd) : Int × Bd :=
  let st := close_m2ts bd.st0
  match st.clip with
  | Option.none => (0, { bd with st0 := st })
  | some clip =>
    let st := { st with fp := io.openOk
                      , clip_size := 0
                      , clip_pos := clip.start_pkt * 192
                      , clip_block_pos := (clip.start_pkt * 192 / 6144) * 6144
                      , eof_hit := false
                      , encrypted_block_cnt := 0 }
    if st.fp then
      if io.fileSize > 0 then
        if io.seekOk then
          let st := { st with clip_size := io.fileSize.toNat, int_buf_off := 6144 }
          let st := { st with uo_mask := (uo_mask_combine
            clip.pl.app_info_uo_mask
            (clip.pl.play_item.getD clip.ref default).uo_mask) }
          let bd := update_uo_mask { bd with st0 := st }
          let bd := { bd with st0 := { bd.st0 with m2ts_filter := true } }
          let bd := { bd with queue := bd.queue ++ io.psrEvents }
          (1, bd)
        else
          (0, { bd with st0 := close_m2ts st })
      else
        (0, { bd with st0 := close_m2ts st })
    else
      (0, { bd with st0 := st })

/-- The reopen-on-clip-change prefix of `_seek_stream`. -/
def seek_reopen (io : OpenOut) (bd : Bd) (clip : NavClip) : Bool × Bd :=
  if ¬ bd.st0.fp ∨ bd.st0.clip = Option.none ∨
      (bd.st0.clip.map NavClip.ref) ≠ some clip.ref then
    if (open_m2ts0 io { bd with st0 := { bd.st0 with clip := some clip } }).1 = 0 then
      (false, (open_m2ts0 io { bd with st0 := { bd.st0 with clip := some clip } }).2)
    else
      (true, (open_m2ts0 io { bd with st0 := { bd.st0 with clip := some clip } }).2)
  else
    (true, bd)

/-- `_seek_stream(bd, &bd->st0, clip, clip_pkt)` (via `seek_reopen`, the
reopen-on-clip-change prefix
`if (!st->fp || !st->clip || clip->ref != st->clip->ref) { ... }`).
`io.seekOk` describes the `file_seek` to the unit boundary, whose failure
is only logged. -/
def seek_stream0 (io : OpenOut) (bd : Bd) (clip : NavClip)
    (clip_pkt : Nat) : Int × Bd :=
  match seek_reopen io bd clip with
  | (false, bd) => (-1, bd)
  | (true, bd) =>
    let st := bd.st0
    let st := { st with clip_pos := clip_pkt * 192 }
    let st := { st with clip_block_pos := (st.clip_pos / 6144) * 6144 }
    let st := { st with int_buf_off := 6144, seek_flag := true }
    ((clip_pkt * 192 : Nat), { bd with st0 := st })

/-!  ## Sub-path preload (`BD_PRELOAD`, `_preload_m2ts`) -/

/-- `BD_PRELOAD`; `buf` models whether the preload buffer is allocated. -/
structure Preload where
  clip : Option NavClip
  clip_size : Nat
  buf : Bool
  deriving Repr

/-- `_close_preload(p)`: free the buffer and zero the structure. -/
def close_preload (_p : Preload) : Preload :=
  { clip := Option.none, clip_size := 0, buf := false }

/-- `PRELOAD_SIZE_LIMIT`: "do not preload clips larger than 512M". -/
def PRELOAD_SIZE_LIMIT : Nat := 512 * 1024 * 1024

/-- The drain loop of `_preload_m2ts`
(`for (; buf < end; buf += 6144) { if (_read_block(...) <= 0) ... }`),
by the number of remaining 6144-byte steps; `reads k` describes the
outcome of the external calls of the `k`-th `_read_block`. -/
def preload_loop (reads : Nat → ReadOut) (idx : Nat) :
    Nat → List BDEvent → BDStream → Bool × List BDEvent × BDStream
  | 0, q, st => (true, q, st)
  | n + 1, q, st =>
    match read_block (reads idx) q st with
    | (r, q, st) =>
      if r ≤ 0 then (false, q, st)
      else preload_loop reads (idx + 1) n q st

/-- `_preload_m2ts(bd, p)`.  `reallocOk` is the outcome of the buffer
`realloc`.  Note the size-ceiling test is performed on `st.clip_size`
straight after `memset(&st, 0, sizeof(st))`, before `_open_m2ts` fills
it in — exactly as in the source. -/
def preload_m2ts (io : OpenOut) (reads : Nat → ReadOut) (reallocOk : Bool)
    (q : List BDEvent) (p : Preload) : Int × List BDEvent × Preload :=
  let st : BDStream :=
    { clip := p.clip, fp := false, clip_size := 0, clip_block_pos := 0,
      clip_pos := 0, int_buf_off := 0, uo_mask := EMPTY_UO_MASK,
      eof_hit := false, encrypted_block_cnt := 0, seek_flag := false,
      m2ts_filter := false }
  if st.clip_size > PRELOAD_SIZE_LIMIT then
    (0, q, p)
  else
    match open_m2ts_sub io st with
    | (r, st) =>
      if r = 0 then (0, q, p)
      else
        let p := { p with clip_size := st.clip_size }
        if ¬ reallocOk then
          (0, q, close_preload p)
        else
          let p := { p with buf := true }
          let steps := (p.clip_size + 6143) / 6144
          match preload_loop reads 0 steps q st with
          | (ok, q, _) =>
            if ok then (1, q, p) else (0, q, close_preload p)

/-!  ## Graphics controller interface (`_run_gc`) -/

/-- Outcome of the external `gc_run` call (the `GC_NAV_CMDS` the
controller filled in, plus its return value) and of `hdmv_vm_running`
after injected navigation commands. -/
structure GcOut where
  result : Int
  num_nav_cmds : Int
  vmRunning : Bool
  status : Nat
  sound_id_ref : Int
  page_uo_mask : UoMask

/-- `_run_gc(bd, msg, param)` (the message and parameter only select the
external controller behaviour, which the `GcOut` oracle captures). -/
def run_gc (io : GcOut) (bd : Bd) : Int × Bd :=
  if bd.graphics_controller ∧ bd.hdmv_vm then
    let bd :=
      if io.num_nav_cmds > 0 then { bd with hdmv_suspended := !io.vmRunning } else bd
    let bd :=
      if io.status ≠ bd.gc_status then
        let changed_flags := io.status ^^^ bd.gc_status
        let bd := { bd with gc_status := io.status }
        let bd :=
          if changed_flags &&& GC_STATUS_MENU_OPEN ≠ 0 then
            { bd with queue := (queue_event bd.queue .menu
                (if bd.gc_status &&& GC_STATUS_MENU_OPEN ≠ 0 then 1 else 0)) }
          else bd
        let bd :=
          if changed_flags &&& GC_STATUS_POPUP ≠ 0 then
            { bd with queue := (queue_event bd.queue .popup
                (if bd.gc_status &&& GC_STATUS_POPUP ≠ 0 then 1 else 0)) }
          else bd
        bd
      else bd
    let bd :=
      if io.sound_id_ref ≥ 0 ∧ io.sound_id_ref < 0xff then
        { bd with queue := queue_event bd.queue .soundEffect io.sound_id_ref.toNat }
      else bd
    let bd := { bd with gc_uo_mask := io.page_uo_mask }
    let bd := update_uo_mask bd
    (io.result, bd)
  else
    let bd :=
      if bd.gc_status &&& GC_STATUS_MENU_OPEN ≠ 0 then
        { bd with queue := queue_event bd.queue .menu 0 }
      else bd
    let bd :=
      if bd.gc_status &&& GC_STATUS_POPUP ≠ 0 then
        { bd with queue := queue_event bd.queue .popup 0 }
      else bd
    (-1, { bd with gc_status := 0 })

/-- The notification events queued by `_run_gc` before it updates the
page user-operation mask (menu open/close, popup, sound effect), spelled
out as a function of the controller outcome; used to state where the
`BD_EVENT_UO_MASK_CHANGED` notification sits in the queue. -/
def gc_pre_events (io : GcOut) (bd : Bd) : List BDEvent :=
  (if io.status ≠ bd.gc_status then
    (if (io.status ^^^ bd.gc_status) &&& GC_STATUS_MENU_OPEN ≠ 0 then
      [⟨.menu, if io.status &&& GC_STATUS_MENU_OPEN ≠ 0 then 1 else 0⟩]
    else []) ++
    (if (io.status ^^^ bd.gc_status) &&& GC_STATUS_POPUP ≠ 0 then
      [⟨.popup, if io.status &&& GC_STATUS_POPUP ≠ 0 then 1 else 0⟩]
    else [])
  else []) ++
  (if io.sound_id_ref ≥ 0 ∧ io.sound_id_ref < 0xff then
    [⟨.soundEffect, io.sound_id_ref.toNat⟩]
  else [])

/-- The combined user-operation mask recomputed by `_update_uo_mask`:
the bitwise combination of the menu-page, title-level and current-clip
contributor masks. -/
def combined_uo_mask (bd : Bd) : UoMask :=
  uo_mask_combine bd.gc_uo_mask (uo_mask_combine bd.title_uo_mask bd.st0.uo_mask)

/-!  ## Navigation searches

`nav_packet_search` / `nav_mark_search` live in `bdnav/navigation.c`,
which is not among the provided sources.  Modelled from the spec:
seek-by-byte-position and seek-by-mark each return "the clip and packet
offset of the nearest valid access point at or before the requested
position (never after)". -/

instance : Inhabited NavClip :=
  ⟨⟨0, 0, 0, 0, [], ⟨EMPTY_UO_MASK, []⟩⟩⟩

instance : Inhabited NavMark := ⟨⟨0, 0, 0⟩⟩

/-- Greatest element of `aps` that is `≤ req`, with default `dflt`. -/
def greatest_le (aps : List Nat) (req dflt : Nat) : Nat :=
  aps.foldl (fun acc a => if a ≤ req ∧ acc < a then a else acc) dflt

/-- Modelled from the spec: `nav_packet_search(title, pkt, ...)` — locate
the clip whose title-relative packet range contains `pkt`, then the
nearest access point at or before the corresponding clip packet; returns
the clip, the clip packet and the title packet of the access point. -/
def nav_packet_search (t : NavTitle) (pkt : Nat) : NavClip × Nat × Nat :=
  let c := (t.clips.find? fun c =>
      pkt < c.title_pkt + (c.end_pkt - c.start_pkt)).getD (t.clips.getLastD default)
  let request := c.start_pkt + (pkt - c.title_pkt)
  let clip_pkt := greatest_le c.accessPoints request c.start_pkt
  (c, clip_pkt, c.title_pkt + (clip_pkt - c.start_pkt))

/-- Modelled from the spec: `nav_mark_search(title, mark, ...)` — the
mark's clip and the nearest access point at or before the mark's clip
packet. -/
def nav_mark_search (t : NavTitle) (mark : Nat) : NavClip × Nat × Nat :=
  let m := t.marks.getD mark default
  let c := t.clips.getD m.clip_ref default
  let clip_pkt := greatest_le c.accessPoints m.clip_pkt c.start_pkt
  (c, clip_pkt, c.title_pkt + (clip_pkt - c.start_pkt))

/-- Modelled from the spec: `_change_angle(bd)` (body not among the
provided sources) executes a pending deferred seamless angle change;
packet positions are angle-independent ("positions are angle-independent
as packet numbers"), and the embedded state carries no pending angle
request, so it is the identity on the modelled fields. -/
def change_angle (bd : Bd) : Bd := bd

/-- Modelled from the spec: `_seek_internal(bd, clip, title_pkt, clip_pkt)`
(body not among the provided sources) repositions the main-path stream via
`_seek_stream` and, on success, updates the title byte position to the
resolved title packet; mark lookahead and notification details are
omitted. -/
def seek_internal (io : OpenOut) (bd : Bd) (clip : NavClip)
    (title_pkt clip_pkt : Nat) : Bd :=
  match seek_stream0 io bd clip clip_pkt with
  | (r, bd) => if r ≥ 0 then { bd with s_pos := title_pkt * 192 } else bd

/-- `bd_seek(bd, pos)` (mutex acquisition elided: the embedding is the
single-threaded body).  Returns the updated player and the returned
`bd->s_pos`. -/
def bd_seek (io : OpenOut) (bd : Bd) (pos : Nat) : Bd × Nat :=
  match bd.title with
  | Option.none => (bd, bd.s_pos)
  | some t =>
    if pos < t.packets * 192 then
      let pkt := SPN pos
      let bd := change_angle bd
      match nav_packet_search t pkt with
      | (clip, clip_pkt, out_pkt) =>
        let bd := seek_internal io bd clip out_pkt clip_pkt
        (bd, bd.s_pos)
    else
      (bd, bd.s_pos)

/-- `bd_seek_mark(bd, mark)` (mutex elided). -/
def bd_seek_mark (io : OpenOut) (bd : Bd) (mark : Nat) : Bd × Nat :=
  match bd.title with
  | Option.none => (bd, bd.s_pos)
  | some t =>
    if mark < t.marks.length then
      let bd := change_angle bd
      match nav_mark_search t mark with
      | (clip, clip_pkt, out_pkt) =>
        let bd := seek_internal io bd clip out_pkt clip_pkt
        (bd, bd.s_pos)
    else
      (bd, bd.s_pos)

/-!  ## `bd_read_ext` (`_read_ext`, `_run_hdmv`)

The HDMV virtual machine, its event processing
(`_process_hdmv_vm_event`) and the demultiplexed payload read
(`_bd_read_locked`) involve collaborators outside the provided sources;
each call's outcome is supplied by an oracle.  A trace of the
externally-visible phases (VM run, graphics-controller tick, payload
read, trailing event fetch) is recorded alongside the state. -/

/-- Outcome of one `_run_hdmv` call: the `hdmv_vm_run` result sign, the
events queued while processing the VM's event burst, `hdmv_vm_running`
afterwards, and `bd->gc_status` after any graphics-controller calls made
during event processing. -/
structure VmStep where
  runResult : Int
  vmEvents : List BDEvent
  running : Bool
  gcStatus : Nat

/-- Outcome of one `_bd_read_locked` call: its byte count, the events it
queued (read errors etc.), and `bd->st0.clip` afterwards. -/
structure BdReadStep where
  bytes : Int
  events : List BDEvent
  clipAfter : Option NavClip

/-- Oracles consumed by one `_read_ext` call: the per-iteration VM steps,
the animation tick's controller outcome, the payload read, and
`hdmv_vm_running` after the end-of-playlist `hdmv_vm_resume`. -/
structure ReadExtOut where
  vm : Nat → VmStep
  gcNop : GcOut
  bdRead : BdReadStep
  resumeRunning : Bool

/-- Trace actions of `_read_ext`. -/
inductive RAct where
  | runVM
  | runGC
  | readPayload
  | fetchTrailing
  deriving DecidableEq, Repr

/-- `_run_hdmv(bd)`: on a VM fault queue `BD_EVENT_ERROR`/`BD_ERROR_HDMV`
and report failure; otherwise apply the processed event burst.  In both
cases `hdmv_suspended` is recomputed from `hdmv_vm_running`. -/
def run_hdmv (step : VmStep) (bd : Bd) : Int × Bd :=
  if step.runResult < 0 then
    (-1, { bd with queue := queue_event bd.queue .error BD_ERROR_HDMV
                 , hdmv_suspended := !step.running })
  else
    (0, { bd with queue := bd.queue ++ step.vmEvents
                , hdmv_suspended := !step.running
                , gc_status := step.gcStatus })

/-- Result of the `while (!bd->hdmv_suspended)` loop in `_read_ext`:
an early `return` with a result and (possibly) an event, normal exit,
or exhaustion of the modelling fuel. -/
inductive LoopRes where
  | ret (r : Int) (ev : Option BDEvent)
  | exited
  | fuelOut
  deriving Repr

/-- The `while (!bd->hdmv_suspended)` loop of `_read_ext`, with the
`loops++ > 100` live-lock guard.  `loops` is the C counter value at loop
entry; `fuel` only bounds the modelled recursion. -/
def read_ext_loop (vm : Nat → VmStep) (loops : Nat) :
    Nat → Bd → LoopRes × Bd × List RAct
  | 0, bd => (.fuelOut, bd, [])
  | fuel + 1, bd =>
    if bd.hdmv_suspended then (.exited, bd, [])
    else
      match run_hdmv (vm loops) bd with
      | (r, bd) =>
        if r < 0 then
          (.ret (-1) Option.none, { bd with title_type := .undef }, [.runVM])
        else
          let bd :=
            if loops > 100 then
              { bd with queue := queue_event bd.queue .error BD_ERROR_HDMV }
            else bd
          match get_event bd.queue with
          | (some ev, q) => (.ret 0 (some ev), { bd with queue := q }, [.runVM])
          | (Option.none, _) =>
            match read_ext_loop vm (loops + 1) fuel bd with
            | (res, bd, tr) => (res, bd, .runVM :: tr)

/-- The payload-read tail of `_read_ext`: `_bd_read_locked` (oracle), the
end-of-playlist VM resume, and the final `_get_event`. -/
def read_ext_do_read (io : ReadExtOut) (bd : Bd) :
    (Int × Option BDEvent) × Bd × List RAct :=
  let bytes := io.bdRead.bytes
  let bd := { bd with queue := bd.queue ++ io.bdRead.events
                    , st0 := { bd.st0 with clip := io.bdRead.clipAfter } }
  let bd := { bd with hdmv_suspended :=
    (if bytes = 0 ∧ bd.st0.clip = Option.none ∧ bd.title_type = .hdmv then
      !io.resumeRunning
    else bd.hdmv_suspended) }
  match get_event bd.queue with
  | (some ev, q) =>
    ((bytes, some ev), { bd with queue := q }, [.readPayload, .fetchTrailing])
  | (Option.none, _) =>
    ((bytes, Option.none), bd, [.readPayload, .fetchTrailing])

/-- The tail of `_read_ext` after the HDMV phase: the `len < 1` poll
check, the BD-J end-of-playlist / idle branches, then the payload read
(`read_ext_do_read`). -/
def read_ext_read_phase (io : ReadExtOut) (bd : Bd) (len : Int) :
    (Int × Option BDEvent) × Bd × List RAct :=
  if len < 1 then
    ((0, Option.none), bd, [])
  else
    if bd.title_type = .bdj then
      let bd :=
        if bd.end_of_playlist = 1 then
          { bd with end_of_playlist := bd.end_of_playlist ||| 2 }
        else bd
      if bd.title = Option.none then
        ((0, Option.none), { bd with queue := queue_event bd.queue .idle 0 }, [])
      else if bd.bdj_wait_start then
        ((0, Option.none), { bd with queue := queue_event bd.queue .idle 1 }, [])
      else
        read_ext_do_read io bd
    else
      read_ext_do_read io bd

/-- `_read_ext(bd, buf, len, event)`.  Returns `none` only on fuel
exhaustion of the modelled VM loop; otherwise `some (result, event)`,
the updated player and the phase trace. -/
def read_ext (io : ReadExtOut) (fuel : Nat) (bd : Bd) (len : Int) :
    Option (Int × Option BDEvent) × Bd × List RAct :=
  match get_event bd.queue with
  | (some ev, q) => (some (0, some ev), { bd with queue := q }, [])
  | (Option.none, _) =>
    if bd.title_type = .hdmv then
      match read_ext_loop io.vm 0 fuel bd with
      | (.ret r ev, bd, tr) => (some (r, ev), bd, tr)
      | (.fuelOut, bd, tr) => (Option.none, bd, tr)
      | (.exited, bd, tr) =>
        let step :=
          if bd.gc_status &&& GC_STATUS_ANIMATE ≠ 0 then
            match run_gc io.gcNop bd with
            | (_, bd) => (bd, tr ++ [.runGC])
          else (bd, tr)
        match step with
        | (bd, tr) =>
          match read_ext_read_phase io bd len with
          | (res, bd, tr2) => (some res, bd, tr ++ tr2)
    else
      match read_ext_read_phase io bd len with
      | (res, bd, tr2) => (some res, bd, tr2)

/-!  ## Predicates used to state the verified properties -/

/-- The stream-cursor data invariant (amended from §3: the byte position
is a multiple of 192; the buffered-unit offset never exceeds 6144, the
value 6144 marking an exhausted/absent buffered unit). -/
def stream_inv (st : BDStream) : Prop :=
  st.clip_pos % 192 = 0 ∧ st.int_buf_off ≤ 6144

instance (st : BDStream) : Decidable (stream_inv st) := by
  unfold stream_inv; infer_instance

/-- A suspected-encrypted aligned unit: copy-permission indicator set,
leading sync byte intact, but the four-packet sync check fails. -/
def enc_suspect (b : Buf) : Prop :=
  b 0 &&& 0xc0 ≠ 0 ∧ b 4 = 0x47 ∧
    (b (4 + 192) ≠ 0x47 ∨ b (4 + 2*192) ≠ 0x47 ∨ b (4 + 3*192) ≠ 0x47)

instance (b : Buf) : Decidable (enc_suspect b) := by
  unfold enc_suspect; infer_instance

/-- Sync byte intact at all four checked packets. -/
def four_sync_ok (b : Buf) : Prop :=
  b 4 = 0x47 ∧ b (4 + 192) = 0x47 ∧ b (4 + 2*192) = 0x47 ∧ b (4 + 3*192) = 0x47

instance (b : Buf) : Decidable (four_sync_ok b) := by
  unfold four_sync_ok; infer_instance

/-- Feed a sequence of aligned units through `_validate_unit`,
collecting the per-unit results. -/
def validate_seq : List Buf → List BDEvent → BDStream →
    List Int × List BDEvent × BDStream
  | [], q, st => ([], q, st)
  | b :: bs, q, st =>
    match validate_unit b q st with
    | (r, q, st) =>
      match validate_seq bs q st with
      | (rs, q, st) => (r :: rs, q, st)

/-- Well-formed clip list starting at title packet `off`: clips tile the
title packet space, are non-empty, and their access points lie inside
the clip's packet range. -/
def wf_clips : Nat → List NavClip → Bool
  | _, [] => true
  | off, c :: cs =>
    decide (c.title_pkt = off) && decide (c.start_pkt < c.end_pkt) &&
    c.accessPoints.all (fun a => decide (c.start_pkt ≤ a) && decide (a < c.end_pkt)) &&
    wf_clips (off + (c.end_pkt - c.start_pkt)) cs

/-- Total title-relative packet length of a clip list. -/
def clips_len (cs : List NavClip) : Nat :=
  (cs.map fun c => c.end_pkt - c.start_pkt).sum

/-- Well-formed mark: it references an existing clip, its clip packet
lies in that clip's range, and its title packet is consistent with the
clip's title-relative placement. -/
def wf_mark (cs : List NavClip) (m : NavMark) : Bool :=
  decide (m.clip_ref < cs.length) &&
  (let c := cs.getD m.clip_ref default
   decide (c.start_pkt ≤ m.clip_pkt) && decide (m.clip_pkt < c.end_pkt) &&
   decide (m.title_pkt = c.title_pkt + (m.clip_pkt - c.start_pkt)))

/-- Well-formed navigation title. -/
def wf_title (t : NavTitle) : Bool :=
  wf_clips 0 t.clips && decide (t.packets = clips_len t.clips) &&
  t.marks.all (wf_mark t.clips)

/-!  ## Concrete fixtures (used by witness theorems) -/

/-- A two-clip playlist mask set. -/
def pl_ex : MplsPl :=
  ⟨⟨true, false, 4⟩, [⟨⟨false, false, 1⟩⟩, ⟨⟨false, true, 2⟩⟩]⟩

def clip_ex1 : NavClip :=
  { ref := 0, start_pkt := 32, end_pkt := 132, title_pkt := 0
    accessPoints := [32, 64, 100], pl := pl_ex }

def clip_ex2 : NavClip :=
  { ref := 1, start_pkt := 0, end_pkt := 50, title_pkt := 100
    accessPoints := [0, 20, 40], pl := pl_ex }

def title_ex : NavTitle :=
  { clips := [clip_ex1, clip_ex2]
    marks := [⟨0, 70, 38⟩, ⟨1, 25, 125⟩]
    packets := 150 }

def st_ex : BDStream :=
  { clip := some clip_ex1, fp := true, clip_size := 6144 * 100
    clip_block_pos := 6144, clip_pos := 6144, int_buf_off := 6144
    uo_mask := EMPTY_UO_MASK, eof_hit := false, encrypted_block_cnt := 0
    seek_flag := false, m2ts_filter := false }

def bd_ex : Bd :=
  { st0 := st_ex, queue := [], uo_mask := EMPTY_UO_MASK
    title_uo_mask := EMPTY_UO_MASK, gc_uo_mask := EMPTY_UO_MASK
    gc_status := 0, title := some title_ex, title_type := .hdmv
    hdmv_suspended := false, s_pos := 0, end_of_playlist := 0
    bdj_wait_start := false, graphics_controller := true, hdmv_vm := true }

def open_ex : OpenOut := ⟨true, 6144 * 100, true, []⟩

def gc_ex : GcOut := ⟨0, 0, true, 0, -1, EMPTY_UO_MASK⟩

/-- A VM step that neither faults, nor suspends, nor yields events. -/
def vm_spin_ex : Nat → VmStep := fun _ => ⟨0, [], true, 0⟩

def read_ext_ex : ReadExtOut :=
  ⟨vm_spin_ex, gc_ex, ⟨6144, [], some clip_ex1⟩, true⟩

/-- An accepted aligned unit: permission clear, sync bytes intact. -/
def buf_ok : Buf := fun i => if i = 0 then 0 else 0x47

/-- A sub-path clip whose stream file is one aligned unit larger than the
512 MiB preload ceiling (536875008 = 6144 × 87382 bytes). -/
def clip_big : NavClip :=
  { ref := 0, start_pkt := 0, end_pkt := 2796224, title_pkt := 0
    accessPoints := [0], pl := pl_ex }

/-- Every `file_read` during a preload drain returns a full, valid unit. -/
def reads_good : Nat → ReadOut := fun _ => ⟨6144, buf_ok, true, 0⟩

/-- A suspected-encrypted aligned unit: permission set, leading sync
intact, later sync bytes broken. -/
def buf_enc : Buf := fun i => if i = 0 then 0xc0 else if i = 4 then 0x47 else 0

/-- A corrupt aligned unit: leading sync byte broken. -/
def buf_bad : Buf := fun _ => 0

/-!  # Theorems -/

/-- Claim C5, counterexample: the `SPN` conversion truncates the shifted
64-bit byte position to `uint32_t`, so it deviates from exact division at
byte position `2^38`, and the packet round trip fails for packet numbers
`p` with `3*p ≥ 2^32`. -/
theorem spn_truncation_counterexample :
    SPN (2 ^ 38) ≠ 2 ^ 38 / 192 ∧ SPN (1431655766 * 192) ≠ 1431655766 := by
  constructor <;> decide

/-- Claim C5 (amended): packet-number/byte-offset conversion via `SPN` is
exact division by 192 for all byte positions below `2^38` (those whose
64-bit position shifted right by 6 still fits in `uint32_t`), and the
round trip `SPN(p * 192) = p` holds for every packet number `p` with
`3 * p < 2^32`. -/
theorem spn_conversion_exact_bounded :
    (∀ pos : Nat, pos < 2 ^ 38 → SPN pos = pos / 192) ∧
    (∀ p : Nat, 3 * p < 2 ^ 32 → SPN (p * 192) = p) := by
  constructor
  · intro pos h
    unfold SPN
    rw [Nat.shiftRight_eq_div_pow]
    have h64 : pos / 2 ^ 6 < 2 ^ 32 := by
      have : pos < 2 ^ 6 * 2 ^ 32 := by norm_num at h ⊢; omega
      exact Nat.div_lt_of_lt_mul this
    rw [Nat.mod_eq_of_lt h64, Nat.div_div_eq_div_mul]
    norm_num
  · intro p h
    unfold SPN
    rw [Nat.shiftRight_eq_div_pow]
    have h3 : p * 192 / 2 ^ 6 = 3 * p := by omega
    rw [h3, Nat.mod_eq_of_lt h, Nat.mul_div_cancel_left _ (by norm_num : 0 < 3)]

/-- Claim C5 witness. -/
theorem spn_conversion_exact_bounded_witness :
    (192 < 2 ^ 38 ∧ SPN 192 = 192 / 192) ∧ (3 * 7 < 2 ^ 32 ∧ SPN (7 * 192) = 7) :=
  ⟨⟨by norm_num, spn_conversion_exact_bounded.1 192 (by norm_num)⟩,
   ⟨by norm_num, spn_conversion_exact_bounded.2 7 (by norm_num)⟩⟩

/-- Claim C10: an out-of-range seek is a no-op reporting the current
position: with no title open, or `bd_seek` at a position at/beyond the
title's total size, or `bd_seek_mark` with a mark index at/beyond the
mark count, no state changes and the unchanged `s_pos` is returned. -/
theorem out_of_range_seek_noop (io : OpenOut) (bd : Bd) (pos mark : Nat) :
    (bd.title = Option.none →
      bd_seek io bd pos = (bd, bd.s_pos) ∧ bd_seek_mark io bd mark = (bd, bd.s_pos)) ∧
    (∀ t, bd.title = some t → t.packets * 192 ≤ pos →
      bd_seek io bd pos = (bd, bd.s_pos)) ∧
    (∀ t, bd.title = some t → t.marks.length ≤ mark →
      bd_seek_mark io bd mark = (bd, bd.s_pos)) := by
  refine ⟨fun h => ?_, fun t h hle => ?_, fun t h hle => ?_⟩
  · constructor <;> simp [bd_seek, bd_seek_mark, h]
  · simp [bd_seek, h, Nat.not_lt.mpr hle]
  · simp [bd_seek_mark, h, Nat.not_lt.mpr hle]

/-- Claim C10 witness. -/
theorem out_of_range_seek_noop_witness :
    title_ex.packets * 192 ≤ 28800 ∧
    bd_seek open_ex bd_ex 28800 = (bd_ex, bd_ex.s_pos) ∧
    title_ex.marks.length ≤ 2 ∧
    bd_seek_mark open_ex bd_ex 2 = (bd_ex, bd_ex.s_pos) := by
  refine ⟨by decide, ?_, by decide, ?_⟩
  · exact (out_of_range_seek_noop open_ex bd_ex 28800 2).2.1 title_ex rfl (by decide)
  · exact (out_of_range_seek_noop open_ex bd_ex 28800 2).2.2 title_ex rfl (by decide)

/-!  ### Stream-cursor invariant lemmas -/

theorem validate_unit_cursor_frame (b : Buf) (q : List BDEvent) (st : BDStream) :
    (validate_unit b q st).2.2.clip_pos = st.clip_pos ∧
    (validate_unit b q st).2.2.int_buf_off = st.int_buf_off := by
  unfold validate_unit
  dsimp only
  split_ifs <;> exact ⟨rfl, rfl⟩

theorem stream_inv_skip_unit (ok : Bool) (q : List BDEvent) (st : BDStream)
    (h : stream_inv st) : stream_inv (skip_unit ok q st).2.2 := by
  obtain ⟨h1, h2⟩ := h
  unfold skip_unit stream_inv
  split_ifs <;> simp <;> omega

theorem stream_inv_open_sub (io : OpenOut) (st : BDStream) (h : stream_inv st) :
    stream_inv (open_m2ts_sub io st).2 := by
  obtain ⟨h1, h2⟩ := h
  unfold open_m2ts_sub
  cases hc : (close_m2ts st).clip with
  | none =>
    simp only [hc]
    simpa [stream_inv, close_m2ts] using ⟨h1, h2⟩
  | some c =>
    simp only [hc]
    split_ifs <;>
      simp_all [stream_inv, close_m2ts, Nat.mul_mod_left]

theorem stream_inv_open0 (io : OpenOut) (bd : Bd) (h : stream_inv bd.st0) :
    stream_inv (open_m2ts0 io bd).2.st0 := by
  obtain ⟨h1, h2⟩ := h
  unfold open_m2ts0
  cases hc : (close_m2ts bd.st0).clip with
  | none =>
    simp only [hc]
    simpa [stream_inv, close_m2ts] using ⟨h1, h2⟩
  | some c =>
    simp only [hc]
    split_ifs <;>
      simp_all [stream_inv, close_m2ts, update_uo_mask, Nat.mul_mod_left] <;>
      (try split_ifs) <;> simp_all [Nat.mul_mod_left]

theorem stream_inv_seek0 (io : OpenOut) (bd : Bd) (clip : NavClip) (pkt : Nat)
    (h : stream_inv bd.st0) : stream_inv (seek_stream0 io bd clip pkt).2.st0 := by
  have h0 : stream_inv (open_m2ts0 io
      { bd with st0 := { bd.st0 with clip := some clip } }).2.st0 :=
    stream_inv_open0 _ _ (by simpa [stream_inv] using h)
  unfold seek_stream0
  split
  next bd1 heq =>
    unfold seek_reopen at heq
    split_ifs at heq
    · simp only [Prod.mk.injEq] at heq
      rw [← heq.2]
      exact h0
    · simp at heq
    · simp at heq
  next bd1 heq =>
    exact ⟨by simp [Nat.mul_mod_left], by simp⟩

theorem stream_inv_read_block (io : ReadOut) (q : List BDEvent) (st : BDStream)
    (h : stream_inv st) : stream_inv (read_block io q st).2.2 := by
  obtain ⟨h1, h2⟩ := h
  have hfr := validate_unit_cursor_frame io.buf q
    { st with clip_block_pos := st.clip_block_pos + 6144 }
  rcases hv : validate_unit io.buf q { st with clip_block_pos := st.clip_block_pos + 6144 }
    with ⟨r, q', st'⟩
  rw [hv] at hfr
  obtain ⟨hp, hi⟩ := hfr
  dsimp only at hp hi
  unfold read_block stream_inv
  dsimp only
  rw [hv]
  dsimp only
  split_ifs <;>
    first
    | exact stream_inv_skip_unit _ _ _ ⟨h1, h2⟩
    | exact ⟨h1, h2⟩
    | (constructor <;> (try simp only [hp, hi]) <;> omega)

/-- Claim C9, counterexample: opening a clip sets the buffered-unit
offset to exactly 6144 (the exhausted-buffer sentinel), so the claimed
strict bound `int_buf_off < 6144` does not survive the open operation
even when it holds beforehand. -/
theorem int_buf_off_6144_after_open :
    ({ st_ex with int_buf_off := 0 } : BDStream).int_buf_off < 6144 ∧
    (open_m2ts_sub open_ex { st_ex with int_buf_off := 0 }).1 = 1 ∧
    ¬ (open_m2ts_sub open_ex { st_ex with int_buf_off := 0 }).2.int_buf_off < 6144 := by
  refine ⟨by decide, by decide, by decide⟩

/-- Claim C9 (amended): every embedded stream-cursor operation — opening
a clip (`_open_m2ts`, both for the main path and for a sub-path stream),
seeking (`_seek_stream`), reading an aligned unit (`_read_block`) and
skipping one (`_skip_unit`) — preserves the invariant that the cursor's
byte position is a multiple of 192 and its buffered-unit offset is at
most 6144 (6144 marking an exhausted buffered unit). -/
theorem stream_cursor_invariant_preserved :
    (∀ (io : OpenOut) (st : BDStream), stream_inv st →
      stream_inv (open_m2ts_sub io st).2) ∧
    (∀ (io : OpenOut) (bd : Bd), stream_inv bd.st0 →
      stream_inv (open_m2ts0 io bd).2.st0) ∧
    (∀ (io : OpenOut) (bd : Bd) (clip : NavClip) (pkt : Nat),
      stream_inv bd.st0 → stream_inv (seek_stream0 io bd clip pkt).2.st0) ∧
    (∀ (io : ReadOut) (q : List BDEvent) (st : BDStream),
      stream_inv st → stream_inv (read_block io q st).2.2) ∧
    (∀ (ok : Bool) (q : List BDEvent) (st : BDStream),
      stream_inv st → stream_inv (skip_unit ok q st).2.2) :=
  ⟨stream_inv_open_sub, stream_inv_open0, stream_inv_seek0,
   stream_inv_read_block, stream_inv_skip_unit⟩

/-- Claim C9 witness. -/
theorem stream_cursor_invariant_preserved_witness :
    stream_inv st_ex ∧
    stream_inv (open_m2ts_sub open_ex st_ex).2 ∧
    stream_inv (open_m2ts0 open_ex bd_ex).2.st0 ∧
    stream_inv (seek_stream0 open_ex bd_ex clip_ex2 7).2.st0 ∧
    stream_inv (read_block ⟨6144, buf_ok, true, 0⟩ [] st_ex).2.2 ∧
    stream_inv (skip_unit true [] st_ex).2.2 := by
  have h : stream_inv st_ex := by decide
  exact ⟨h, stream_cursor_invariant_preserved.1 open_ex st_ex h,
    stream_cursor_invariant_preserved.2.1 open_ex bd_ex h,
    stream_cursor_invariant_preserved.2.2.1 open_ex bd_ex clip_ex2 7 h,
    stream_cursor_invariant_preserved.2.2.2.1 ⟨6144, buf_ok, true, 0⟩ [] st_ex h,
    stream_cursor_invariant_preserved.2.2.2.2 true [] st_ex h⟩

/-!  ### Encrypted-unit counting (`_validate_unit`) -/

theorem validate_unit_enc_step (b : Buf) (q : List BDEvent) (st : BDStream)
    (hb : enc_suspect b) :
    validate_unit b q st =
      if (st.encrypted_block_cnt + 1) % 256 > 10 then
        (-1, queue_event q .encrypted BD_ERROR_AACS,
         { st with encrypted_block_cnt := (st.encrypted_block_cnt + 1) % 256 })
      else
        (0, queue_event q .readError 1,
         { st with encrypted_block_cnt := (st.encrypted_block_cnt + 1) % 256 }) := by
  obtain ⟨hb0, hb4, hbs⟩ := hb
  unfold validate_unit
  rw [if_pos (Or.inl hb0), if_pos (Or.inr hbs), if_pos hb4]

theorem validate_unit_accepts_four_sync (b : Buf) (q : List BDEvent)
    (st : BDStream) (hb : four_sync_ok b) :
    validate_unit b q st =
      (1, q, { st with eof_hit := false, encrypted_block_cnt := 0 }) := by
  obtain ⟨h4, ha, hb2, hc⟩ := hb
  unfold validate_unit
  by_cases h0 : b 0 &&& 0xc0 ≠ 0
  · rw [if_pos (Or.inl h0), if_neg]
    simp [h4, ha, hb2, hc]
  · rw [if_neg]
    simp [h0, h4]

theorem validate_seq_enc_chain (bufs : List Buf) :
    ∀ (q : List BDEvent) (st : BDStream),
    (∀ b ∈ bufs, enc_suspect b) →
    st.encrypted_block_cnt + bufs.length ≤ 10 →
    validate_seq bufs q st =
      (List.replicate bufs.length 0,
       q ++ List.replicate bufs.length ⟨.readError, 1⟩,
       { st with encrypted_block_cnt := st.encrypted_block_cnt + bufs.length }) := by
  induction bufs with
  | nil => intro q st _ _; simp [validate_seq]
  | cons b bs ih =>
    intro q st hall hcnt
    have hb : enc_suspect b := hall b (List.mem_cons_self b bs)
    have hlen : bs.length + 1 ≤ 10 - st.encrypted_block_cnt := by
      simp only [List.length_cons] at hcnt; omega
    rw [validate_seq, validate_unit_enc_step b q st hb]
    have hmod : (st.encrypted_block_cnt + 1) % 256 = st.encrypted_block_cnt + 1 := by
      omega
    rw [if_neg (by omega)]
    dsimp only
    rw [ih (queue_event q .readError 1)
        { st with encrypted_block_cnt := (st.encrypted_block_cnt + 1) % 256 }
        (fun b hb => hall b (List.mem_cons_of_mem _ hb)) (by simp [hmod]; omega)]
    have harith : (st.encrypted_block_cnt + 1) % 256 + bs.length =
        st.encrypted_block_cnt + (bs.length + 1) := by omega
    simp [queue_event, harith, List.replicate_succ]

theorem validate_seq_append (xs ys : List Buf) :
    ∀ (q : List BDEvent) (st : BDStream),
    validate_seq (xs ++ ys) q st =
      ((validate_seq xs q st).1 ++
        (validate_seq ys (validate_seq xs q st).2.1 (validate_seq xs q st).2.2).1,
       (validate_seq ys (validate_seq xs q st).2.1 (validate_seq xs q st).2.2).2) := by
  induction xs with
  | nil => intro q st; simp [validate_seq]
  | cons b bs ih =>
    intro q st
    rcases hv : validate_unit b q st with ⟨r, q1, st1⟩
    simp [validate_seq, hv, ih]

/-- Claim C1: starting from a zeroed encrypted-unit counter, feeding 11
consecutive suspected-encrypted aligned units (copy-permission indicator
set, leading sync byte intact, four-packet sync check failing) makes
`_validate_unit` return the fatal signal and queue `BD_EVENT_ENCRYPTED`
(`BD_ERROR_AACS`) exactly on the 11th unit and not before (the first ten
yield recoverable drops); and any unit whose sync pattern is intact at
all four checked packets is accepted, resetting the counter to zero. -/
theorem validate_unit_encrypted_on_eleventh
    (bufs : List Buf) (q : List BDEvent) (st : BDStream)
    (hlen : bufs.length = 11) (hall : ∀ b ∈ bufs, enc_suspect b)
    (hcnt : st.encrypted_block_cnt = 0) :
    (validate_seq bufs q st).1 = List.replicate 10 (0 : Int) ++ [-1] ∧
    (validate_seq bufs q st).2.1 =
      q ++ List.replicate 10 (⟨.readError, 1⟩ : BDEvent) ++
        [⟨.encrypted, BD_ERROR_AACS⟩] ∧
    (∀ (b : Buf) (q' : List BDEvent) (st' : BDStream), four_sync_ok b →
      validate_unit b q' st' =
        (1, q', { st' with eof_hit := false, encrypted_block_cnt := 0 })) := by
  obtain ⟨b11, hb11⟩ : ∃ b, bufs.drop 10 = [b] := by
    apply List.length_eq_one.mp
    simp [hlen]
  have hsplit : bufs = bufs.take 10 ++ [b11] := by
    rw [← hb11, List.take_append_drop]
  have htlen : (bufs.take 10).length = 10 := by simp [hlen]
  have hall10 : ∀ b ∈ bufs.take 10, enc_suspect b :=
    fun b hb => hall b (List.mem_of_mem_take hb)
  have hchain := validate_seq_enc_chain (bufs.take 10) q st hall10
    (by rw [htlen, hcnt])
  rw [htlen, hcnt] at hchain
  simp only [Nat.zero_add] at hchain
  have hb11enc : enc_suspect b11 := by
    apply hall
    rw [hsplit]
    exact List.mem_append_right _ (List.mem_singleton.mpr rfl)
  have h11 : ∀ (q' : List BDEvent), validate_seq [b11] q'
      { st with encrypted_block_cnt := 10 } =
      ([-1], queue_event q' .encrypted BD_ERROR_AACS,
       { st with encrypted_block_cnt := 11 }) := by
    intro q'
    rw [validate_seq, validate_unit_enc_step b11 _ _ hb11enc, if_pos (by norm_num)]
    dsimp only
    rw [validate_seq]
  refine ⟨?_, ?_, fun b q' st' hb => validate_unit_accepts_four_sync b q' st' hb⟩
  · conv_lhs => rw [hsplit]
    rw [validate_seq_append, hchain]
    (try dsimp only)
    (try rw [h11])
  · conv_lhs => rw [hsplit]
    rw [validate_seq_append, hchain]
    (try dsimp only)
    (try rw [h11])
    (try simp [queue_event])

/-- Claim C1 witness. -/
theorem validate_unit_encrypted_on_eleventh_witness :
    (List.replicate 11 buf_enc).length = 11 ∧
    (∀ b ∈ List.replicate 11 buf_enc, enc_suspect b) ∧
    st_ex.encrypted_block_cnt = 0 ∧
    (validate_seq (List.replicate 11 buf_enc) [] st_ex).1 =
      List.replicate 10 (0 : Int) ++ [-1] ∧
    (validate_seq (List.replicate 11 buf_enc) [] st_ex).2.1 =
      List.replicate 10 (⟨.readError, 1⟩ : BDEvent) ++
        [⟨.encrypted, BD_ERROR_AACS⟩] := by
  have hall : ∀ b ∈ List.replicate 11 buf_enc, enc_suspect b := by
    intro b hb
    rw [List.eq_of_mem_replicate hb]
    decide
  have h := validate_unit_encrypted_on_eleventh (List.replicate 11 buf_enc) [] st_ex
    (by simp) hall rfl
  exact ⟨by simp, hall, rfl, h.1, by simpa using h.2.1⟩

/-!  ### Corrupt-unit skipping (`_read_block`, `_skip_unit`) -/

theorem validate_unit_block_frame (b : Buf) (q : List BDEvent) (st : BDStream) :
    (validate_unit b q st).2.2.clip_block_pos = st.clip_block_pos := by
  unfold validate_unit
  dsimp only
  split_ifs <;> rfl

theorem validate_unit_result_zero (b : Buf) (q : List BDEvent) (st : BDStream)
    (h : (validate_unit b q st).1 = 0) :
    (validate_unit b q st).2.1 = queue_event q .readError 1 := by
  unfold validate_unit at h ⊢
  dsimp only at h ⊢
  split_ifs at h ⊢ <;> simp_all

/-- Claim C2: whenever `_read_block` on an open stream does not accept the
aligned unit — the read returned fewer than 6144 bytes while the position
plus 6144 is still inside the declared clip size, or the unit failed sync
validation (`_validate_unit` returned 0) — it queues a recoverable
`BD_EVENT_READ_ERROR`, advances both the byte position and the block
position by exactly one aligned unit (so the position strictly
increases; the skipped bytes are never re-delivered), and does not
report the unit as accepted. -/
theorem read_block_bad_unit_skips_one_unit
    (io : ReadOut) (q : List BDEvent) (st : BDStream)
    (hfp : st.fp = true)
    (hcase :
      (6144 + st.clip_block_pos ≤ st.clip_size ∧ io.readLen ≠ 6144) ∨
      (io.readLen = 6144 ∧ 6144 + st.clip_block_pos ≤ st.clip_size ∧
        (validate_unit io.buf q
          { st with clip_block_pos := st.clip_block_pos + 6144 }).1 = 0)) :
    (read_block io q st).2.2.clip_pos = st.clip_pos + 6144 ∧
    (read_block io q st).2.2.clip_block_pos = st.clip_block_pos + 6144 ∧
    st.clip_pos < (read_block io q st).2.2.clip_pos ∧
    (∃ p, (read_block io q st).2.1 = q ++ [⟨.readError, p⟩]) ∧
    (read_block io q st).1 ≤ 0 := by
  rcases hcase with ⟨hin, hlen⟩ | ⟨hlen, hin, hval⟩
  · have hrb : read_block io q st = skip_unit io.seekOk q st := by
      unfold read_block
      rw [if_pos hfp, if_pos hin]
      by_cases hz : io.readLen ≠ 0
      · rw [if_pos hz, if_pos hlen]
      · rw [if_neg hz]
    rw [hrb]
    unfold skip_unit
    dsimp only
    split_ifs <;>
      exact ⟨rfl, rfl, by dsimp only; omega, ⟨0, rfl⟩, by norm_num⟩
  · have hframe := validate_unit_cursor_frame io.buf q
      { st with clip_block_pos := st.clip_block_pos + 6144 }
    have hblock := validate_unit_block_frame io.buf q
      { st with clip_block_pos := st.clip_block_pos + 6144 }
    have hq := validate_unit_result_zero io.buf q
      { st with clip_block_pos := st.clip_block_pos + 6144 } hval
    rcases hv : validate_unit io.buf q
        { st with clip_block_pos := st.clip_block_pos + 6144 } with ⟨r, q1, st1⟩
    rw [hv] at hval hframe hblock hq
    dsimp only at hval hframe hblock hq
    have hrb : read_block io q st = (r, q1, { st1 with clip_pos := st1.clip_pos + 6144 }) := by
      unfold read_block
      rw [if_pos hfp, if_pos hin, if_pos (by rw [hlen]; norm_num),
        if_neg (by rw [hlen]; norm_num)]
      dsimp only
      rw [hv]
      dsimp only
      rw [if_pos (by omega)]
    rw [hrb]
    refine ⟨by dsimp only; rw [hframe.1], by dsimp only; rw [hblock],
      by dsimp only; rw [hframe.1]; omega, ⟨1, by simpa [queue_event] using hq⟩, by omega⟩

/-- Claim C2 witness (a unit with broken sync bytes on an open stream). -/
theorem read_block_bad_unit_skips_one_unit_witness :
    st_ex.fp = true ∧
    (validate_unit buf_bad []
      { st_ex with clip_block_pos := st_ex.clip_block_pos + 6144 }).1 = 0 ∧
    (read_block ⟨6144, buf_bad, true, 0⟩ [] st_ex).2.2.clip_pos =
      st_ex.clip_pos + 6144 ∧
    (read_block ⟨6144, buf_bad, true, 0⟩ [] st_ex).2.2.clip_block_pos =
      st_ex.clip_block_pos + 6144 ∧
    (∃ p, (read_block ⟨6144, buf_bad, true, 0⟩ [] st_ex).2.1 =
      [] ++ [⟨.readError, p⟩]) := by
  have h := read_block_bad_unit_skips_one_unit ⟨6144, buf_bad, true, 0⟩ [] st_ex rfl
    (Or.inr ⟨rfl, by decide, by decide⟩)
  exact ⟨rfl, by decide, h.1, h.2.1, h.2.2.2.1⟩

/-!  ### Combined user-operation mask (`_update_uo_mask` and its callers) -/

theorem gc_pre_events_no_uo_mask_event (io : GcOut) (bd : Bd) :
    EvType.uoMaskChanged ∉ (gc_pre_events io bd).map BDEvent.event := by
  unfold gc_pre_events
  split_ifs <;> simp

theorem run_gc_decomp (io : GcOut) (bd : Bd)
    (h : bd.graphics_controller ∧ bd.hdmv_vm) :
    (run_gc io bd).1 = io.result ∧
    (run_gc io bd).2 = update_uo_mask
      { bd with
          hdmv_suspended :=
            (if io.num_nav_cmds > 0 then !io.vmRunning else bd.hdmv_suspended)
          gc_status :=
            (if io.status ≠ bd.gc_status then io.status else bd.gc_status)
          queue := bd.queue ++ gc_pre_events io bd
          gc_uo_mask := io.page_uo_mask } := by
  unfold run_gc gc_pre_events queue_event
  rw [if_pos h]
  dsimp only
  split_ifs <;> simp [List.append_assoc]

theorem update_uo_mask_spec (bd : Bd) :
    (update_uo_mask bd).uo_mask = combined_uo_mask bd ∧
    (update_uo_mask bd).st0 = bd.st0 ∧
    (update_uo_mask bd).title_uo_mask = bd.title_uo_mask ∧
    (update_uo_mask bd).gc_uo_mask = bd.gc_uo_mask ∧
    (update_uo_mask bd).queue =
      (if compressed_mask bd.uo_mask ≠ compressed_mask (combined_uo_mask bd)
       then bd.queue ++ [⟨.uoMaskChanged, compressed_mask (combined_uo_mask bd)⟩]
       else bd.queue) := by
  unfold update_uo_mask combined_uo_mask queue_event
  dsimp only
  split_ifs <;> simp_all

/-- Claim C6: after each operation that changes a contributor mask — the
title-level mask (HDMV or BD-J variant), the current-clip mask installed
when a main-path clip is opened (playlist-wide mask combined with the
play-item mask), or the menu-page mask delivered by the graphics
controller — the player's combined mask equals the bitwise combination
of the three contributors, and `BD_EVENT_UO_MASK_CHANGED` (carrying the
new compressed mask) is queued exactly when the compressed
menu-call/title-search bits changed. -/
theorem uo_mask_recomputed_on_contributor_change
    (bd : Bd) (mask : Nat) (io : OpenOut) (gio : GcOut) (c : NavClip) :
    ((update_hdmv_uo_mask mask bd).uo_mask =
        combined_uo_mask (update_hdmv_uo_mask mask bd) ∧
      (update_hdmv_uo_mask mask bd).queue =
        (if compressed_mask bd.uo_mask ≠
            compressed_mask (update_hdmv_uo_mask mask bd).uo_mask
         then bd.queue ++ [⟨.uoMaskChanged,
            compressed_mask (update_hdmv_uo_mask mask bd).uo_mask⟩]
         else bd.queue)) ∧
    ((bd_set_bdj_uo_mask bd mask).uo_mask =
        combined_uo_mask (bd_set_bdj_uo_mask bd mask) ∧
      (bd_set_bdj_uo_mask bd mask).queue =
        (if compressed_mask bd.uo_mask ≠
            compressed_mask (bd_set_bdj_uo_mask bd mask).uo_mask
         then bd.queue ++ [⟨.uoMaskChanged,
            compressed_mask (bd_set_bdj_uo_mask bd mask).uo_mask⟩]
         else bd.queue)) ∧
    (bd.st0.clip = some c → io.openOk = true → io.fileSize > 0 → io.seekOk = true →
      (open_m2ts0 io bd).1 = 1 ∧
      (open_m2ts0 io bd).2.uo_mask = combined_uo_mask (open_m2ts0 io bd).2 ∧
      (open_m2ts0 io bd).2.st0.uo_mask =
        uo_mask_combine c.pl.app_info_uo_mask
          (c.pl.play_item.getD c.ref default).uo_mask ∧
      (open_m2ts0 io bd).2.queue =
        (if compressed_mask bd.uo_mask ≠
            compressed_mask (open_m2ts0 io bd).2.uo_mask
         then bd.queue ++ [⟨.uoMaskChanged,
            compressed_mask (open_m2ts0 io bd).2.uo_mask⟩]
         else bd.queue) ++ io.psrEvents) ∧
    (bd.graphics_controller = true → bd.hdmv_vm = true →
      (run_gc gio bd).2.uo_mask = combined_uo_mask (run_gc gio bd).2 ∧
      (run_gc gio bd).2.gc_uo_mask = gio.page_uo_mask ∧
      (run_gc gio bd).2.queue =
        (bd.queue ++ gc_pre_events gio bd) ++
        (if compressed_mask bd.uo_mask ≠
            compressed_mask (run_gc gio bd).2.uo_mask
         then [⟨.uoMaskChanged, compressed_mask (run_gc gio bd).2.uo_mask⟩]
         else []) ∧
      EvType.uoMaskChanged ∉ (gc_pre_events gio bd).map BDEvent.event) := by
  refine ⟨?_, ?_, ?_, ?_⟩
  · obtain ⟨hm, hst, hti, hgc, hq⟩ := update_uo_mask_spec
      { bd with title_uo_mask :=
        { bd.title_uo_mask with
            title_search := mask &&& HDMV_TITLE_SEARCH_MASK ≠ 0
            menu_call := mask &&& HDMV_MENU_CALL_MASK ≠ 0 } }
    unfold update_hdmv_uo_mask
    refine ⟨?_, ?_⟩
    · rw [hm]
      unfold combined_uo_mask
      rw [hst, hti, hgc]
    · rw [hq, hm]
  · obtain ⟨hm, hst, hti, hgc, hq⟩ := update_uo_mask_spec
      { bd with title_uo_mask :=
        { bd.title_uo_mask with
            title_search := mask &&& BDJ_TITLE_SEARCH_MASK ≠ 0
            menu_call := mask &&& BDJ_MENU_CALL_MASK ≠ 0 } }
    unfold bd_set_bdj_uo_mask
    refine ⟨?_, ?_⟩
    · rw [hm]
      unfold combined_uo_mask
      rw [hst, hti, hgc]
    · rw [hq, hm]
  · intro hclip hopen hsize hseek
    have hc : (close_m2ts bd.st0).clip = some c := by
      simp [close_m2ts, hclip]
    obtain ⟨hm, hst, hti, hgc, hq⟩ := update_uo_mask_spec
      { bd with st0 :=
        { close_m2ts bd.st0 with
            fp := io.openOk, clip_size := io.fileSize.toNat
            clip_pos := c.start_pkt * 192
            clip_block_pos := (c.start_pkt * 192 / 6144) * 6144
            eof_hit := false, encrypted_block_cnt := 0, int_buf_off := 6144
            uo_mask := (uo_mask_combine c.pl.app_info_uo_mask
              (c.pl.play_item.getD c.ref default).uo_mask) } }
    unfold open_m2ts0
    simp only [hc]
    rw [if_pos hopen, if_pos hsize, if_pos hseek]
    refine ⟨rfl, ?_, ?_, ?_⟩ <;>
      simp_all [combined_uo_mask, close_m2ts]
  · intro hg hv
    obtain ⟨-, hdec⟩ := run_gc_decomp gio bd ⟨hg, hv⟩
    obtain ⟨hm, hst, hti, hgc, hq⟩ := update_uo_mask_spec
      { bd with
          hdmv_suspended :=
            (if gio.num_nav_cmds > 0 then !gio.vmRunning else bd.hdmv_suspended)
          gc_status :=
            (if gio.status ≠ bd.gc_status then gio.status else bd.gc_status)
          queue := bd.queue ++ gc_pre_events gio bd
          gc_uo_mask := gio.page_uo_mask }
    rw [hdec]
    refine ⟨?_, ?_, ?_, gc_pre_events_no_uo_mask_event gio bd⟩
    · rw [hm]
      unfold combined_uo_mask
      rw [hst, hti, hgc]
    · rw [hgc]
    · rw [hq, hm]
      split_ifs <;> simp_all [combined_uo_mask]

/-- Claim C6 witness. -/
theorem uo_mask_recomputed_witness :
    (update_hdmv_uo_mask 3 bd_ex).uo_mask =
      combined_uo_mask (update_hdmv_uo_mask 3 bd_ex) ∧
    bd_ex.st0.clip = some clip_ex1 ∧
    (open_m2ts0 open_ex bd_ex).1 = 1 ∧
    (open_m2ts0 open_ex bd_ex).2.uo_mask =
      combined_uo_mask (open_m2ts0 open_ex bd_ex).2 ∧
    (run_gc gc_ex bd_ex).2.uo_mask = combined_uo_mask (run_gc gc_ex bd_ex).2 := by
  have h := uo_mask_recomputed_on_contributor_change bd_ex 3 open_ex gc_ex clip_ex1
  exact ⟨h.1.1, rfl, (h.2.2.1 rfl rfl (by norm_num [open_ex]) rfl).1,
    (h.2.2.1 rfl rfl (by norm_num [open_ex]) rfl).2.1, (h.2.2.2 rfl rfl).1⟩

/-!  ### Sub-path preload (`_preload_m2ts`) -/

theorem read_block_accepts (io : ReadOut) (q : List BDEvent) (st : BDStream)
    (hfp : st.fp = true) (hin : 6144 + st.clip_block_pos ≤ st.clip_size)
    (hlen : io.readLen = 6144) (hok : four_sync_ok io.buf)
    (hfil : st.m2ts_filter = false) :
    read_block io q st =
      (1, q, { st with clip_block_pos := st.clip_block_pos + 6144
                     , eof_hit := false, encrypted_block_cnt := 0 }) := by
  unfold read_block
  rw [if_pos hfp, if_pos hin, if_pos (by rw [hlen]; norm_num),
    if_neg (by rw [hlen]; norm_num)]
  dsimp only
  rw [validate_unit_accepts_four_sync io.buf q _ hok]
  dsimp only
  rw [if_neg (by norm_num)]
  simp [hfil]

theorem preload_loop_all_good (reads : Nat → ReadOut)
    (hgood : ∀ k, (reads k).readLen = 6144 ∧ four_sync_ok (reads k).buf) :
    ∀ (n idx : Nat) (q : List BDEvent) (st : BDStream),
    st.fp = true → st.m2ts_filter = false →
    st.clip_block_pos + 6144 * n ≤ st.clip_size →
    (preload_loop reads idx n q st).1 = true ∧
    (preload_loop reads idx n q st).2.1 = q := by
  intro n
  induction n with
  | zero => intro idx q st _ _ _; exact ⟨rfl, rfl⟩
  | succ n ih =>
    intro idx q st hfp hfil hbound
    have hrb := read_block_accepts (reads idx) q st hfp (by omega)
      (hgood idx).1 (hgood idx).2 hfil
    rw [preload_loop, hrb]
    dsimp only
    rw [if_neg (by norm_num)]
    exact ih (idx + 1) q _ hfp hfil (by dsimp only; omega)

theorem preload_m2ts_success_eq (io : OpenOut) (reads : Nat → ReadOut)
    (q : List BDEvent) (p : Preload) (stO : BDStream)
    (okr : Bool) (qr : List BDEvent) (str : BDStream)
    (hopen : open_m2ts_sub io
      { clip := p.clip, fp := false, clip_size := 0, clip_block_pos := 0,
        clip_pos := 0, int_buf_off := 0, uo_mask := EMPTY_UO_MASK,
        eof_hit := false, encrypted_block_cnt := 0, seek_flag := false,
        m2ts_filter := false } = (1, stO))
    (hloop : preload_loop reads 0 ((stO.clip_size + 6143) / 6144) q stO =
      (okr, qr, str))
    (hok : okr = true) :
    preload_m2ts io reads true q p =
      (1, qr, { p with clip_size := stO.clip_size, buf := true }) := by
  unfold preload_m2ts
  rw [if_neg (by norm_num [PRELOAD_SIZE_LIMIT]), hopen]
  dsimp only
  rw [if_neg (by norm_num)]
  rw [if_neg (by norm_num)]
  rw [hloop]
  (try dsimp only)
  rw [hok, if_pos rfl]

/-- Claim C8 (code bug): the 512 MiB preload size ceiling is tested on
`st.clip_size` immediately after `memset(&st, 0, sizeof(st))`, before
`_open_m2ts` fills the size in, so the test compares 0 against the limit
and never fires: a clip one aligned unit larger than the ceiling is
preloaded to completion (result 1) instead of being rejected. -/
theorem preload_oversized_clip_not_rejected :
    PRELOAD_SIZE_LIMIT < 536875008 ∧
    (preload_m2ts ⟨true, 536875008, true, []⟩ reads_good true []
      ⟨some clip_big, 0, false⟩).1 = 1 ∧
    (preload_m2ts ⟨true, 536875008, true, []⟩ reads_good true []
      ⟨some clip_big, 0, false⟩).2.2.clip_size = 536875008 ∧
    (preload_m2ts ⟨true, 536875008, true, []⟩ reads_good true []
      ⟨some clip_big, 0, false⟩).2.2.buf = true := by
  have hopen : open_m2ts_sub ⟨true, 536875008, true, []⟩
      { clip := some clip_big, fp := false, clip_size := 0, clip_block_pos := 0,
        clip_pos := 0, int_buf_off := 0, uo_mask := EMPTY_UO_MASK,
        eof_hit := false, encrypted_block_cnt := 0, seek_flag := false,
        m2ts_filter := false } =
      (1, { clip := some clip_big, fp := true, clip_size := 536875008,
            clip_block_pos := 0, clip_pos := 0, int_buf_off := 6144,
            uo_mask := EMPTY_UO_MASK, eof_hit := false,
            encrypted_block_cnt := 0, seek_flag := false,
            m2ts_filter := false }) := by
    decide
  have hloop := preload_loop_all_good reads_good
    (fun k => ⟨rfl, show four_sync_ok buf_ok by decide⟩) 87382 0 []
    { clip := some clip_big, fp := true, clip_size := 536875008,
      clip_block_pos := 0, clip_pos := 0, int_buf_off := 6144,
      uo_mask := EMPTY_UO_MASK, eof_hit := false,
      encrypted_block_cnt := 0, seek_flag := false, m2ts_filter := false }
    rfl rfl (by norm_num)
  rcases hl : preload_loop reads_good 0 87382 []
      { clip := some clip_big, fp := true, clip_size := 536875008,
        clip_block_pos := 0, clip_pos := 0, int_buf_off := 6144,
        uo_mask := EMPTY_UO_MASK, eof_hit := false,
        encrypted_block_cnt := 0, seek_flag := false, m2ts_filter := false }
    with ⟨ok, q2, st2⟩
  rw [hl] at hloop
  obtain ⟨hok, hq2⟩ := hloop
  dsimp only at hok hq2
  have heq := preload_m2ts_success_eq ⟨true, 536875008, true, []⟩ reads_good []
    ⟨some clip_big, 0, false⟩ _ ok q2 st2 hopen
    (by rw [show ((536875008 : Nat) + 6143) / 6144 = 87382 by norm_num]; exact hl)
    hok
  rw [heq]
  refine ⟨by norm_num [PRELOAD_SIZE_LIMIT], rfl, rfl, rfl⟩

/-!  ### HDMV live-lock guard (`_read_ext` VM loop) -/

theorem read_ext_loop_spin (vm : Nat → VmStep)
    (hvm : ∀ n, (vm n).runResult ≥ 0 ∧ (vm n).vmEvents = [] ∧ (vm n).running = true) :
    ∀ (d loops fuel : Nat) (bd : Bd), loops + d = 102 → 1 ≤ d → d ≤ fuel →
    bd.queue = [] → bd.hdmv_suspended = false →
    read_ext_loop vm loops fuel bd =
      (.ret 0 (some ⟨.error, BD_ERROR_HDMV⟩),
       { bd with gc_status := (vm 101).gcStatus, hdmv_suspended := false
               , queue := [] },
       List.replicate d .runVM) := by
  intro d
  induction d with
  | zero => omega
  | succ d ih =>
    intro loops fuel bd hsum h1 hfuel hq hs
    obtain ⟨hres, hev, hrun⟩ := hvm loops
    cases fuel with
    | zero => omega
    | succ f =>
      rw [read_ext_loop]
      rw [if_neg (by rw [hs]; norm_num)]
      unfold run_hdmv
      rw [if_neg (by omega)]
      dsimp only
      rw [if_neg (by omega)]
      by_cases hd : d = 0
      · subst hd
        have hl : loops = 101 := by omega
        subst hl
        rw [if_pos (by norm_num)]
        rw [hq, hev]
        dsimp only [List.append_nil, queue_event, List.nil_append, get_event]
        rw [hrun]
        rfl
      · rw [if_neg (by omega)]
        rw [hq, hev]
        simp only [List.append_nil, List.nil_append]
        rw [ih (loops + 1) f
          { bd with queue := [], hdmv_suspended := !(vm loops).running
                  , gc_status := (vm loops).gcStatus }
          (by omega) (by omega) (by omega) rfl (by rw [hrun]; rfl)]
        rw [hrun]
        simp [get_event, List.replicate_succ]

/-- Claim C4: with an interpreted (HDMV) title active and a VM that never
suspends while producing no drainable event, `_read_ext` terminates in a
bounded number of VM iterations: the live-lock guard queues
`BD_EVENT_ERROR` with parameter `BD_ERROR_HDMV` once more than 100
iterations have run, and the call returns 0 delivering exactly that
event after 102 VM runs, independent of the remaining fuel. -/
theorem read_ext_livelock_bounded (io : ReadExtOut) (fuel : Nat) (bd : Bd)
    (len : Int)
    (hvm : ∀ n, (io.vm n).runResult ≥ 0 ∧ (io.vm n).vmEvents = [] ∧
      (io.vm n).running = true)
    (hq : bd.queue = []) (ht : bd.title_type = .hdmv)
    (hs : bd.hdmv_suspended = false) (hfuel : 102 ≤ fuel) :
    (read_ext io fuel bd len).1 = some (0, some ⟨.error, BD_ERROR_HDMV⟩) ∧
    (read_ext io fuel bd len).2.2 = List.replicate 102 .runVM := by
  unfold read_ext
  rw [hq]
  dsimp only [get_event]
  rw [if_pos ht]
  rw [read_ext_loop_spin io.vm hvm 102 0 fuel bd (by omega) (by omega)
    (by omega) hq hs]
  exact ⟨rfl, rfl⟩

/-- Claim C4 witness. -/
theorem read_ext_livelock_bounded_witness :
    (read_ext read_ext_ex 102 bd_ex 6144).1 =
      some (0, some ⟨.error, BD_ERROR_HDMV⟩) ∧
    (read_ext read_ext_ex 102 bd_ex 6144).2.2 = List.replicate 102 .runVM :=
  read_ext_livelock_bounded read_ext_ex 102 bd_ex 6144
    (fun _ => ⟨by norm_num [read_ext_ex, vm_spin_ex], rfl, rfl⟩)
    rfl rfl rfl (by norm_num)

/-!  ### Phase ordering of `_read_ext` -/

theorem read_ext_do_read_shape (io : ReadExtOut) (bd : Bd) :
    (read_ext_do_read io bd).2.2 = [.readPayload, .fetchTrailing] ∧
    (read_ext_do_read io bd).1.1 = io.bdRead.bytes := by
  unfold read_ext_do_read
  dsimp only
  generalize (bd.queue ++ io.bdRead.events) = Q
  cases Q <;> dsimp only [get_event] <;> exact ⟨rfl, rfl⟩

theorem read_ext_read_phase_shape (io : ReadExtOut) (bd : Bd) (len : Int) :
    ((read_ext_read_phase io bd len).2.2 = [] ∧
      (read_ext_read_phase io bd len).1.1 = 0) ∨
    ((read_ext_read_phase io bd len).2.2 = [.readPayload, .fetchTrailing] ∧
      (read_ext_read_phase io bd len).1.1 = io.bdRead.bytes) := by
  unfold read_ext_read_phase
  dsimp only
  split_ifs <;>
    first
    | exact Or.inl ⟨rfl, rfl⟩
    | exact Or.inr (read_ext_do_read_shape io _)

theorem read_ext_loop_trace_shape (vm : Nat → VmStep) :
    ∀ (fuel loops : Nat) (bd : Bd), ∃ n,
    (read_ext_loop vm loops fuel bd).2.2 = List.replicate n .runVM := by
  intro fuel
  induction fuel with
  | zero => intro loops bd; exact ⟨0, rfl⟩
  | succ f ih =>
    intro loops bd
    rw [read_ext_loop]
    by_cases hs : bd.hdmv_suspended = true
    · rw [if_pos hs]; exact ⟨0, rfl⟩
    · rw [if_neg hs]
      rcases hrh : run_hdmv (vm loops) bd with ⟨r, bd1⟩
      dsimp only
      by_cases hr : r < 0
      · rw [if_pos hr]; exact ⟨1, rfl⟩
      · rw [if_neg hr]
        rcases hge : get_event (if loops > 100 then
            { bd1 with queue := queue_event bd1.queue .error BD_ERROR_HDMV }
          else bd1).queue with ⟨oe, q⟩
        rw [hge]
        cases oe with
        | some ev => exact ⟨1, rfl⟩
        | none =>
          obtain ⟨n, hn⟩ := ih (loops + 1) (if loops > 100 then
            { bd1 with queue := queue_event bd1.queue .error BD_ERROR_HDMV }
          else bd1)
          rcases hrec : read_ext_loop vm (loops + 1) f (if loops > 100 then
              { bd1 with queue := queue_event bd1.queue .error BD_ERROR_HDMV }
            else bd1) with ⟨res2, bd3, tr⟩
          rw [hrec] at hn
          dsimp only at hn
          exact ⟨n + 1, by dsimp only; rw [hn, List.replicate_succ]⟩

theorem read_ext_loop_exited_suspended (vm : Nat → VmStep) :
    ∀ (fuel loops : Nat) (bd : Bd),
    (read_ext_loop vm loops fuel bd).1 = .exited →
    (read_ext_loop vm loops fuel bd).2.1.hdmv_suspended = true := by
  intro fuel
  induction fuel with
  | zero => intro loops bd h; rw [read_ext_loop] at h; simp at h
  | succ f ih =>
    intro loops bd
    rw [read_ext_loop]
    by_cases hs : bd.hdmv_suspended = true
    · rw [if_pos hs]; intro _; exact hs
    · rw [if_neg hs]
      rcases hrh : run_hdmv (vm loops) bd with ⟨r, bd1⟩
      dsimp only
      by_cases hr : r < 0
      · rw [if_pos hr]; intro h; simp at h
      · rw [if_neg hr]
        rcases hge : get_event (if loops > 100 then
            { bd1 with queue := queue_event bd1.queue .error BD_ERROR_HDMV }
          else bd1).queue with ⟨oe, q⟩
        rw [hge]
        cases oe with
        | some ev => intro h; simp at h
        | none =>
          have hih := ih (loops + 1) (if loops > 100 then
            { bd1 with queue := queue_event bd1.queue .error BD_ERROR_HDMV }
          else bd1)
          rcases hrec : read_ext_loop vm (loops + 1) f (if loops > 100 then
              { bd1 with queue := queue_event bd1.queue .error BD_ERROR_HDMV }
            else bd1) with ⟨res2, bd3, tr⟩
          rw [hrec] at hih
          dsimp only at hih ⊢
          exact hih

theorem trace_split_after_no_payload :
    ∀ (A : List RAct), RAct.readPayload ∉ A →
    ∀ (l m : List RAct),
    A ++ [RAct.readPayload, RAct.fetchTrailing] = l ++ RAct.readPayload :: m →
    m = [RAct.fetchTrailing] := by
  intro A
  induction A with
  | nil =>
    intro _ l m h
    cases l with
    | nil => simpa using h.symm
    | cons b l' =>
      simp only [List.nil_append, List.cons_append, List.cons.injEq] at h
      obtain ⟨-, h2⟩ := h
      cases l' with
      | nil => simp at h2
      | cons c l'' =>
        simp only [List.cons_append, List.cons.injEq] at h2
        have := congrArg List.length h2.2
        simp only [List.length_nil, List.length_append, List.length_cons] at this
        omega
  | cons a A' ih =>
    intro hA l m h
    cases l with
    | nil =>
      simp only [List.cons_append, List.nil_append, List.cons.injEq] at h
      exact absurd (h.1 ▸ List.mem_cons_self a A') hA
    | cons b l' =>
      simp only [List.cons_append, List.cons.injEq] at h
      exact ih (fun hm => hA (List.mem_cons_of_mem _ hm)) l' m h.2

theorem read_ext_shape (io : ReadExtOut) (fuel : Nat) (bd : Bd) (len : Int) :
    (∃ e rest, bd.queue = e :: rest ∧
      read_ext io fuel bd len = (some (0, some e), { bd with queue := rest }, [])) ∨
    (∃ n, (read_ext io fuel bd len).2.2 = List.replicate n .runVM) ∨
    (∃ (pre : List RAct) (res2 : Int × Option BDEvent) (bd2 : Bd) (tr2 : List RAct),
      RAct.readPayload ∉ pre ∧
      (tr2 = [] ∨ (tr2 = [.readPayload, .fetchTrailing] ∧ res2.1 = io.bdRead.bytes)) ∧
      read_ext io fuel bd len = (some res2, bd2, pre ++ tr2)) := by
  unfold read_ext
  cases hq : bd.queue with
  | cons e rest =>
    dsimp only [get_event]
    exact Or.inl ⟨e, rest, rfl, rfl⟩
  | nil =>
    dsimp only [get_event]
    by_cases ht : bd.title_type = .hdmv
    · rw [if_pos ht]
      obtain ⟨n, htr⟩ := read_ext_loop_trace_shape io.vm fuel 0 bd
      rcases hloop : read_ext_loop io.vm 0 fuel bd with ⟨res1, bd1, tr1⟩
      rw [hloop] at htr
      dsimp only at htr
      cases res1 with
      | ret r ev => exact Or.inr (Or.inl ⟨n, by dsimp only; exact htr⟩)
      | fuelOut => exact Or.inr (Or.inl ⟨n, by dsimp only; exact htr⟩)
      | exited =>
        refine Or.inr (Or.inr ?_)
        have hgc : ∀ (bd2 : Bd) (pre : List RAct), RAct.readPayload ∉ pre →
            ∃ (pre' : List RAct) (res2 : Int × Option BDEvent) (bd3 : Bd)
              (tr2 : List RAct),
            RAct.readPayload ∉ pre' ∧
            (tr2 = [] ∨ (tr2 = [.readPayload, .fetchTrailing] ∧
              res2.1 = io.bdRead.bytes)) ∧
            (some (read_ext_read_phase io bd2 len).1,
              (read_ext_read_phase io bd2 len).2.1,
              pre ++ (read_ext_read_phase io bd2 len).2.2) =
              ((some res2 : Option (Int × Option BDEvent)), bd3, pre' ++ tr2) := by
          intro bd2 pre hpre
          rcases hph : read_ext_read_phase io bd2 len with ⟨res2, bd3, tr2⟩
          have hsh := read_ext_read_phase_shape io bd2 len
          rw [hph] at hsh
          dsimp only at hsh
          refine ⟨pre, res2, bd3, tr2, hpre, ?_, rfl⟩
          rcases hsh with ⟨h1, -⟩ | ⟨h1, h2⟩
          · exact Or.inl h1
          · exact Or.inr ⟨h1, h2⟩
        have hpre1 : RAct.readPayload ∉ tr1 := by
          rw [htr]
          intro hm
          have := List.eq_of_mem_replicate hm
          simp at this
        dsimp only
        split_ifs with ha
        · rcases hrg : run_gc io.gcNop bd1 with ⟨rg, bd2⟩
          dsimp only
          refine hgc bd2 (tr1 ++ [.runGC]) ?_
          intro hm
          rcases List.mem_append.mp hm with hm1 | hm2
          · exact hpre1 hm1
          · simp at hm2
        · exact hgc bd1 tr1 hpre1
    · rw [if_neg ht]
      rcases hph : read_ext_read_phase io bd len with ⟨res2, bd3, tr2⟩
      have hsh := read_ext_read_phase_shape io bd len
      rw [hph] at hsh
      dsimp only at hsh
      refine Or.inr (Or.inr ⟨[], res2, bd3, tr2, by simp, ?_, by simp⟩)
      rcases hsh with ⟨h1, -⟩ | ⟨h1, h2⟩
      · exact Or.inl h1
      · exact Or.inr ⟨h1, h2⟩

/-- Claim C7: `_read_ext` works in a fixed order.  (1) A pending queued
notification is returned immediately (result 0, no VM run, no payload
read, only the event popped).  (2) Whenever a payload read appears in
the phase trace, it is followed by exactly one trailing event fetch and
nothing else — in particular no VM run follows it, and at most one read
occurs.  (3) With no interpreted title active the VM is never run.
(4) The VM-run loop only ever exits normally with the VM suspended.
(5) When a payload read occurred, the call returns the byte count
produced by `_bd_read_locked`. -/
theorem read_ext_phase_order (io : ReadExtOut) (fuel : Nat) (bd : Bd)
    (len : Int) :
    (∀ e rest, bd.queue = e :: rest →
      read_ext io fuel bd len = (some (0, some e), { bd with queue := rest }, [])) ∧
    (∀ l m, (read_ext io fuel bd len).2.2 = l ++ RAct.readPayload :: m →
      m = [.fetchTrailing]) ∧
    (bd.title_type ≠ .hdmv → RAct.runVM ∉ (read_ext io fuel bd len).2.2) ∧
    (∀ (loops f : Nat) (bd' : Bd),
      (read_ext_loop io.vm loops f bd').1 = .exited →
      (read_ext_loop io.vm loops f bd').2.1.hdmv_suspended = true) ∧
    (RAct.readPayload ∈ (read_ext io fuel bd len).2.2 →
      ∃ ev, (read_ext io fuel bd len).1 = some (io.bdRead.bytes, ev)) := by
  refine ⟨?_, ?_, ?_,
    fun loops f bd' => read_ext_loop_exited_suspended io.vm f loops bd', ?_⟩
  · intro e rest hq
    unfold read_ext
    rw [hq]
    dsimp only [get_event]
  · intro l m hsplit
    rcases read_ext_shape io fuel bd len with
      ⟨e, rest, hq, heq⟩ | ⟨n, htr⟩ | ⟨pre, res2, bd2, tr2, hpre, hsh, heq⟩
    · rw [heq] at hsplit
      simp at hsplit
    · rw [htr] at hsplit
      have hmem : RAct.readPayload ∈ List.replicate n RAct.runVM := by
        rw [hsplit]
        exact List.mem_append_right _ (List.mem_cons_self _ _)
      have := List.eq_of_mem_replicate hmem
      simp at this
    · rw [heq] at hsplit
      dsimp only at hsplit
      rcases hsh with htr2 | ⟨htr2, -⟩
      · rw [htr2, List.append_nil] at hsplit
        exact absurd
          (hsplit ▸ List.mem_append_right l (List.mem_cons_self _ _)) hpre
      · rw [htr2] at hsplit
        exact trace_split_after_no_payload pre hpre l m hsplit
  · intro hne
    unfold read_ext
    cases hq : bd.queue with
    | cons e rest => dsimp only [get_event]; simp
    | nil =>
      dsimp only [get_event]
      rw [if_neg hne]
      rcases hph : read_ext_read_phase io bd len with ⟨res2, bd3, tr2⟩
      have hsh := read_ext_read_phase_shape io bd len
      rw [hph] at hsh
      dsimp only at hsh ⊢
      rcases hsh with ⟨h1, -⟩ | ⟨h1, -⟩ <;> rw [h1] <;> simp
  · intro hmem
    rcases read_ext_shape io fuel bd len with
      ⟨e, rest, hq, heq⟩ | ⟨n, htr⟩ | ⟨pre, res2, bd2, tr2, hpre, hsh, heq⟩
    · rw [heq] at hmem
      simp at hmem
    · rw [htr] at hmem
      have := List.eq_of_mem_replicate hmem
      simp at this
    · rw [heq] at hmem
      dsimp only at hmem
      rcases List.mem_append.mp hmem with hm1 | hm2
      · exact absurd hm1 hpre
      · rcases hsh with htr2 | ⟨htr2, hby⟩
        · rw [htr2] at hm2
          simp at hm2
        · exact ⟨res2.2, by rw [heq, ← hby]⟩

/-- Claim C7 witness. -/
theorem read_ext_phase_order_witness :
    read_ext read_ext_ex 5 { bd_ex with queue := [⟨.menu, 1⟩] } 6144 =
      (some (0, some ⟨.menu, 1⟩), { bd_ex with queue := [] }, []) ∧
    (∃ ev, (read_ext read_ext_ex 5
        { bd_ex with title_type := .undef } 6144).1 =
      some (read_ext_ex.bdRead.bytes, ev)) := by
  constructor
  · exact (read_ext_phase_order read_ext_ex 5
      { bd_ex with queue := [⟨.menu, 1⟩] } 6144).1 ⟨.menu, 1⟩ [] rfl
  · exact (read_ext_phase_order read_ext_ex 5
      { bd_ex with title_type := .undef } 6144).2.2.2.2 (by decide)

/-!  ### Seek resolution (`bd_seek`, `bd_seek_mark`) -/

theorem greatest_le_ge (aps : List Nat) :
    ∀ req dflt, dflt ≤ greatest_le aps req dflt := by
  induction aps with
  | nil => intro req dflt; exact Nat.le_refl _
  | cons a as ih =>
    intro req dflt
    unfold greatest_le at ih ⊢
    rw [List.foldl_cons]
    refine le_trans ?_ (ih req _)
    dsimp only
    split_ifs with h
    · omega
    · exact Nat.le_refl _

theorem greatest_le_le (aps : List Nat) :
    ∀ req dflt, dflt ≤ req → greatest_le aps req dflt ≤ req := by
  induction aps with
  | nil => intro req dflt h; exact h
  | cons a as ih =>
    intro req dflt h
    unfold greatest_le at ih ⊢
    rw [List.foldl_cons]
    apply ih
    dsimp only
    split_ifs with hc
    · exact hc.1
    · exact h

theorem greatest_le_mem (aps : List Nat) :
    ∀ req dflt, greatest_le aps req dflt = dflt ∨ greatest_le aps req dflt ∈ aps := by
  induction aps with
  | nil => intro req dflt; exact Or.inl rfl
  | cons a as ih =>
    intro req dflt
    unfold greatest_le at ih ⊢
    rw [List.foldl_cons]
    rcases ih req (if a ≤ req ∧ dflt < a then a else dflt) with h | h
    · rw [h]
      split_ifs with hc
      · exact Or.inr (List.mem_cons_self _ _)
      · exact Or.inl rfl
    · exact Or.inr (List.mem_cons_of_mem _ h)

theorem greatest_le_lt_of_bounds (aps : List Nat) (req dflt hi : Nat)
    (hd : dflt < hi) (hb : ∀ a ∈ aps, a < hi) :
    greatest_le aps req dflt < hi := by
  rcases greatest_le_mem aps req dflt with h | h
  · rw [h]; exact hd
  · exact hb _ h

theorem clips_len_cons (c : NavClip) (cs : List NavClip) :
    clips_len (c :: cs) = (c.end_pkt - c.start_pkt) + clips_len cs := by
  simp [clips_len]

theorem find_clip_spec :
    ∀ (cs : List NavClip) (off pkt : Nat), wf_clips off cs = true →
    off ≤ pkt → pkt < off + clips_len cs →
    ∃ c, (cs.find? fun c =>
        pkt < c.title_pkt + (c.end_pkt - c.start_pkt)) = some c ∧
      c ∈ cs ∧
      c.title_pkt ≤ pkt ∧ pkt < c.title_pkt + (c.end_pkt - c.start_pkt) ∧
      c.start_pkt < c.end_pkt ∧
      (∀ a ∈ c.accessPoints, c.start_pkt ≤ a ∧ a < c.end_pkt) := by
  intro cs
  induction cs with
  | nil =>
    intro off pkt _ hlo hhi
    simp [clips_len] at hhi
    omega
  | cons c cs ih =>
    intro off pkt hwf hlo hhi
    simp only [wf_clips, Bool.and_eq_true, decide_eq_true_eq,
      List.all_eq_true] at hwf
    obtain ⟨⟨⟨h_tp, h_se⟩, h_aps⟩, h_rest⟩ := hwf
    by_cases hin : pkt < c.title_pkt + (c.end_pkt - c.start_pkt)
    · refine ⟨c, ?_, List.mem_cons_self _ _, ?_, hin, h_se, ?_⟩
      · rw [List.find?_cons_of_pos _ (by simpa using hin)]
      · rw [h_tp]; exact hlo
      · intro a ha
        have := h_aps a ha
        simp only [Bool.and_eq_true, decide_eq_true_eq] at this
        exact this
    · rw [List.find?_cons_of_neg _ (by simpa using hin)]
      obtain ⟨c', h1, h2, h3, h4, h5, h6⟩ :=
        ih (off + (c.end_pkt - c.start_pkt)) pkt h_rest
          (by rw [h_tp] at hin; omega)
          (by rw [clips_len_cons] at hhi; omega)
      exact ⟨c', h1, List.mem_cons_of_mem _ h2, h3, h4, h5, h6⟩

theorem wf_clips_mem_spec :
    ∀ (cs : List NavClip) (off : Nat), wf_clips off cs = true →
    ∀ c ∈ cs, c.start_pkt < c.end_pkt ∧
      ∀ a ∈ c.accessPoints, c.start_pkt ≤ a ∧ a < c.end_pkt := by
  intro cs
  induction cs with
  | nil => intro off _ c hc; simp at hc
  | cons c0 cs ih =>
    intro off hwf c hc
    simp only [wf_clips, Bool.and_eq_true, decide_eq_true_eq,
      List.all_eq_true] at hwf
    obtain ⟨⟨⟨-, h_se⟩, h_aps⟩, h_rest⟩ := hwf
    rcases List.mem_cons.mp hc with rfl | hc'
    · refine ⟨h_se, fun a ha => ?_⟩
      have := h_aps a ha
      simp only [Bool.and_eq_true, decide_eq_true_eq] at this
      exact this
    · exact ih _ h_rest c hc'

theorem SPN_le_div (pos : Nat) : SPN pos ≤ pos / 192 := by
  unfold SPN
  rw [Nat.shiftRight_eq_div_pow]
  calc pos / 2 ^ 6 % 2 ^ 32 / 3 ≤ pos / 2 ^ 6 / 3 :=
        Nat.div_le_div_right (Nat.mod_le _ _)
    _ = pos / 192 := by rw [Nat.div_div_eq_div_mul]; norm_num

theorem nav_packet_search_spec (t : NavTitle) (pkt : Nat)
    (hwf : wf_title t = true) (hpkt : pkt < t.packets) :
    (nav_packet_search t pkt).2.2 ≤ pkt ∧
    (nav_packet_search t pkt).1.start_pkt ≤ (nav_packet_search t pkt).2.1 ∧
    (nav_packet_search t pkt).2.1 < (nav_packet_search t pkt).1.end_pkt ∧
    (nav_packet_search t pkt).1 ∈ t.clips := by
  simp only [wf_title, Bool.and_eq_true, decide_eq_true_eq,
    List.all_eq_true] at hwf
  obtain ⟨⟨hclips, hlen⟩, -⟩ := hwf
  obtain ⟨c, hfind, hmem, hlo, hhi, hse, haps⟩ :=
    find_clip_spec t.clips 0 pkt hclips (Nat.zero_le _)
      (by rw [hlen] at hpkt; omega)
  unfold nav_packet_search
  rw [hfind]
  dsimp only [Option.getD_some]
  have hreq_ge : c.start_pkt ≤ c.start_pkt + (pkt - c.title_pkt) := Nat.le_add_right _ _
  have hreq_lt : c.start_pkt + (pkt - c.title_pkt) < c.end_pkt := by omega
  have hge := greatest_le_ge c.accessPoints (c.start_pkt + (pkt - c.title_pkt)) c.start_pkt
  have hle := greatest_le_le c.accessPoints (c.start_pkt + (pkt - c.title_pkt))
    c.start_pkt hreq_ge
  have hlt := greatest_le_lt_of_bounds c.accessPoints
    (c.start_pkt + (pkt - c.title_pkt)) c.start_pkt c.end_pkt hse
    (fun a ha => (haps a ha).2)
  exact ⟨by omega, hge, hlt, hmem⟩

theorem nav_mark_search_spec (t : NavTitle) (mark : Nat)
    (hwf : wf_title t = true) (hm : mark < t.marks.length) :
    (nav_mark_search t mark).2.2 ≤ (t.marks.getD mark default).title_pkt ∧
    (nav_mark_search t mark).1.start_pkt ≤ (nav_mark_search t mark).2.1 ∧
    (nav_mark_search t mark).2.1 < (nav_mark_search t mark).1.end_pkt := by
  simp only [wf_title, Bool.and_eq_true, decide_eq_true_eq,
    List.all_eq_true] at hwf
  obtain ⟨⟨hclips, -⟩, hmarks⟩ := hwf
  have hmm : t.marks.getD mark default ∈ t.marks := by
    rw [List.getD_eq_getElem t.marks default hm]
    exact List.getElem_mem _
  have hwm := hmarks _ hmm
  simp only [wf_mark, Bool.and_eq_true, decide_eq_true_eq] at hwm
  obtain ⟨href, ⟨hms, hme⟩, htp⟩ := hwm
  have hcm : t.clips.getD (t.marks.getD mark default).clip_ref default ∈ t.clips := by
    rw [List.getD_eq_getElem t.clips default href]
    exact List.getElem_mem _
  obtain ⟨hse, haps⟩ := wf_clips_mem_spec t.clips 0 hclips _ hcm
  unfold nav_mark_search
  dsimp only
  have hge := greatest_le_ge
    (t.clips.getD (t.marks.getD mark default).clip_ref default).accessPoints
    (t.marks.getD mark default).clip_pkt
    (t.clips.getD (t.marks.getD mark default).clip_ref default).start_pkt
  have hle := greatest_le_le
    (t.clips.getD (t.marks.getD mark default).clip_ref default).accessPoints
    (t.marks.getD mark default).clip_pkt
    (t.clips.getD (t.marks.getD mark default).clip_ref default).start_pkt hms
  have hlt := greatest_le_lt_of_bounds
    (t.clips.getD (t.marks.getD mark default).clip_ref default).accessPoints
    (t.marks.getD mark default).clip_pkt
    (t.clips.getD (t.marks.getD mark default).clip_ref default).start_pkt
    (t.clips.getD (t.marks.getD mark default).clip_ref default).end_pkt hse
    (fun a ha => (haps a ha).2)
  exact ⟨by omega, hge, hlt⟩

theorem open_m2ts0_success (io : OpenOut) (bd : Bd) (c : NavClip)
    (hclip : bd.st0.clip = some c) (ho : io.openOk = true)
    (hs : io.fileSize > 0) (hk : io.seekOk = true) :
    (open_m2ts0 io bd).1 = 1 := by
  unfold open_m2ts0
  have hc : (close_m2ts bd.st0).clip = some c := by simp [close_m2ts, hclip]
  simp only [hc]
  rw [if_pos ho, if_pos hs, if_pos hk]

theorem seek_reopen_fst (io : OpenOut) (bd : Bd) (clip : NavClip)
    (ho : io.openOk = true) (hs : io.fileSize > 0) (hk : io.seekOk = true) :
    (seek_reopen io bd clip).1 = true := by
  unfold seek_reopen
  split_ifs with hif h0
  · exfalso
    have hop := open_m2ts0_success io
      { bd with st0 := { bd.st0 with clip := some clip } } clip rfl ho hs hk
    have h0' : (open_m2ts0 io
        { bd with st0 := { bd.st0 with clip := some clip } }).1 = 0 := h0
    omega
  · rfl
  · rfl

theorem seek_stream0_success (io : OpenOut) (bd : Bd) (clip : NavClip)
    (pkt : Nat) (ho : io.openOk = true) (hs : io.fileSize > 0)
    (hk : io.seekOk = true) :
    (seek_stream0 io bd clip pkt).1 = ((pkt * 192 : Nat) : Int) ∧
    (seek_stream0 io bd clip pkt).2.st0.clip_pos = pkt * 192 := by
  unfold seek_stream0
  split
  next bd1 heq =>
    have hf := seek_reopen_fst io bd clip ho hs hk
    rw [heq] at hf
    simp at hf
  next bd1 heq =>
    exact ⟨rfl, rfl⟩

theorem seek_internal_success (io : OpenOut) (bd : Bd) (clip : NavClip)
    (title_pkt clip_pkt : Nat) (ho : io.openOk = true) (hs : io.fileSize > 0)
    (hk : io.seekOk = true) :
    (seek_internal io bd clip title_pkt clip_pkt).s_pos = title_pkt * 192 ∧
    (seek_internal io bd clip title_pkt clip_pkt).st0.clip_pos = clip_pkt * 192 := by
  have h := seek_stream0_success io bd clip clip_pkt ho hs hk
  unfold seek_internal
  rcases hr : seek_stream0 io bd clip clip_pkt with ⟨r, bd1⟩
  rw [hr] at h
  dsimp only at h
  obtain ⟨h1, h2⟩ := h
  dsimp only
  rw [if_pos (by rw [h1]; positivity)]
  exact ⟨rfl, h2⟩

/-- Claim C3: for every byte position inside the title's packet range,
`bd_seek` resolves (via the spec-modelled `nav_packet_search`) to a
clip/packet pair whose title packet is at most `SPN(pos)` — never past
the requested point — and which lies inside that clip's valid packet
range; the playback position is repositioned exactly there.  The
analogous at-or-before property holds for `bd_seek_mark` on a valid
mark index. -/
theorem seek_lands_at_or_before (sio : OpenOut) (bd : Bd) (t : NavTitle)
    (pos mark : Nat) (ht : bd.title = some t) (hwf : wf_title t = true)
    (ho : sio.openOk = true) (hs : sio.fileSize > 0) (hk : sio.seekOk = true) :
    (pos < t.packets * 192 →
      (nav_packet_search t (SPN pos)).2.2 ≤ SPN pos ∧
      SPN pos ≤ pos / 192 ∧
      (nav_packet_search t (SPN pos)).1.start_pkt ≤
        (nav_packet_search t (SPN pos)).2.1 ∧
      (nav_packet_search t (SPN pos)).2.1 <
        (nav_packet_search t (SPN pos)).1.end_pkt ∧
      (nav_packet_search t (SPN pos)).1 ∈ t.clips ∧
      (bd_seek sio bd pos).1.s_pos = (nav_packet_search t (SPN pos)).2.2 * 192 ∧
      (bd_seek sio bd pos).1.s_pos ≤ pos ∧
      (bd_seek sio bd pos).1.st0.clip_pos =
        (nav_packet_search t (SPN pos)).2.1 * 192) ∧
    (mark < t.marks.length →
      (nav_mark_search t mark).2.2 ≤ (t.marks.getD mark default).title_pkt ∧
      (nav_mark_search t mark).1.start_pkt ≤ (nav_mark_search t mark).2.1 ∧
      (nav_mark_search t mark).2.1 < (nav_mark_search t mark).1.end_pkt ∧
      (bd_seek_mark sio bd mark).1.s_pos = (nav_mark_search t mark).2.2 * 192) := by
  constructor
  · intro hlt
    have hpkt : SPN pos < t.packets := by
      have h1 := SPN_le_div pos
      have h2 : pos / 192 < t.packets := Nat.div_lt_of_lt_mul (by omega)
      omega
    obtain ⟨hle, hcp1, hcp2, hmem⟩ := nav_packet_search_spec t (SPN pos) hwf hpkt
    have hseek : (bd_seek sio bd pos).1 =
        seek_internal sio (change_angle bd) (nav_packet_search t (SPN pos)).1
          (nav_packet_search t (SPN pos)).2.2 (nav_packet_search t (SPN pos)).2.1 := by
      unfold bd_seek
      rw [ht]
      dsimp only
      rw [if_pos hlt]
    obtain ⟨hsp, hcp⟩ := seek_internal_success sio (change_angle bd)
      (nav_packet_search t (SPN pos)).1 (nav_packet_search t (SPN pos)).2.2
      (nav_packet_search t (SPN pos)).2.1 ho hs hk
    refine ⟨hle, SPN_le_div pos, hcp1, hcp2, hmem, ?_, ?_, ?_⟩
    · rw [hseek, hsp]
    · rw [hseek, hsp]
      have h1 : (nav_packet_search t (SPN pos)).2.2 ≤ pos / 192 := by
        have := SPN_le_div pos
        omega
      calc (nav_packet_search t (SPN pos)).2.2 * 192 ≤ (pos / 192) * 192 := by
            exact Nat.mul_le_mul_right _ h1
        _ ≤ pos := Nat.div_mul_le_self pos 192
    · rw [hseek, hcp]
  · intro hm
    obtain ⟨hle, hcp1, hcp2⟩ := nav_mark_search_spec t mark hwf hm
    have hseek : (bd_seek_mark sio bd mark).1 =
        seek_internal sio (change_angle bd) (nav_mark_search t mark).1
          (nav_mark_search t mark).2.2 (nav_mark_search t mark).2.1 := by
      unfold bd_seek_mark
      rw [ht]
      dsimp only
      rw [if_pos hm]
    obtain ⟨hsp, -⟩ := seek_internal_success sio (change_angle bd)
      (nav_mark_search t mark).1 (nav_mark_search t mark).2.2
      (nav_mark_search t mark).2.1 ho hs hk
    exact ⟨hle, hcp1, hcp2, by rw [hseek, hsp]⟩

/-- Claim C3 witness: position 13445 (packet 70) inside the two-clip
example title resolves to access point 64 of clip 1. -/
theorem seek_lands_at_or_before_witness :
    wf_title title_ex = true ∧
    (13445 : Nat) < title_ex.packets * 192 ∧
    (nav_packet_search title_ex (SPN 13445)).2.2 ≤ SPN 13445 ∧
    (bd_seek open_ex bd_ex 13445).1.s_pos =
      (nav_packet_search title_ex (SPN 13445)).2.2 * 192 ∧
    (1 : Nat) < title_ex.marks.length ∧
    (bd_seek_mark open_ex bd_ex 1).1.s_pos =
      (nav_mark_search title_ex 1).2.2 * 192 := by
  have h := seek_lands_at_or_before open_ex bd_ex title_ex 13445 1 rfl
    (by decide) rfl (by norm_num [open_ex]) rfl
  refine ⟨by decide, by decide, ?_, ?_, by decide, ?_⟩
  · exact (h.1 (by decide)).1
  · exact (h.1 (by decide)).2.2.2.2.2.1
  · exact (h.2 (by decide)).2.2.2

end LibBluray
